import Mathlib

/-!
Shallow embedding of the PubTator parsing / document-model / serialization
engine (`pubtator.py`, plus `write_standoff` of `convertpubtator.py`).

Modelling conventions:
* an input stream is a `List String` of lines, one string per physical line,
  without the trailing newline (Python's matchers strip `'\n\r'` before use,
  and the regular expressions involved treat the trailing newline as
  insignificant whitespace);
* Python strings are `String`, character work happens on `String.data`;
* functions that can raise return `Except String` (the message plays the
  role of the exception); functions that only emit log warnings return the
  warnings as data;
* Python's module-level error counter of `read_pubtator` is returned as the
  second component of the result.
-/

namespace Pubtator

/-- Python `not line.strip()`: the line is blank after stripping whitespace. -/
def blankStr (s : String) : Bool := s.data.all Char.isWhitespace

/-- Pattern `pat` occurs at the start of the character list. -/
def startsWithChars : List Char → List Char → Bool
  | [], _ => true
  | _ :: _, [] => false
  | p :: ps, c :: cs => p = c && startsWithChars ps cs

/-- Pattern `pat` occurs somewhere in the character list. -/
def containsSub (pat : List Char) : List Char → Bool
  | [] => startsWithChars pat []
  | c :: cs => startsWithChars pat (c :: cs) || containsSub pat cs

/-- Python `pat in s` (substring containment). -/
def strIn (pat s : String) : Bool := containsSub pat.data s.data

/-- Python `str.split(sep)` for a single-character separator. -/
def splitChar (sep : Char) : List Char → List (List Char)
  | [] => [[]]
  | c :: cs =>
    match splitChar sep cs with
    | [] => if c = sep then [[], []] else [[c]]
    | g :: gs => if c = sep then [] :: g :: gs else (c :: g) :: gs

/-- Numeric value of a decimal digit string (Python `int` on the digit
groups produced by the format's regular expressions). -/
def decVal (l : List Char) : Nat := l.foldl (fun a c => a * 10 + (c.toNat - 48)) 0

/-- Decimal rendering of `n`, most significant digit first; the first
argument is fuel (any fuel `≥ n` is exact). -/
def pyStrAux : Nat → Nat → List Char
  | 0, _ => []
  | f + 1, n => if n = 0 then [] else pyStrAux f (n / 10) ++ [Nat.digitChar (n % 10)]

/-- Python `str(n)` for a natural number. -/
def pyStr (n : Nat) : String := if n = 0 then "0" else ⟨pyStrAux n n⟩

/-! ### Line shapes

The three regular expressions `TEXT_RE`, `SPAN_RE`, `REL_RE` of
`pubtator.py`, rendered as deterministic parsers.  Greedy subpattern
semantics is forced everywhere except in the tail of `SPAN_RE`
(`\t*(\S*)(?:\t(.*))?\s*$`), whose backtracking search is reproduced
explicitly below. -/

/-- Maximal leading run of decimal digits, which must be nonempty
(`\d+`). -/
def splitDigits (l : List Char) : Option (List Char × List Char) :=
  match l.takeWhile Char.isDigit with
  | [] => none
  | ds => some (ds, l.dropWhile Char.isDigit)

/-- Consume one tab character. -/
def expectTab : List Char → Option (List Char)
  | '\t' :: r => some r
  | _ => none

/-- Source `TEXT_RE = ^(\d+)\|(.)\|(.*)$` applied to a full line. -/
def parseTextLine (s : String) : Option (String × Char × String) :=
  match splitDigits s.data with
  | none => none
  | some (ds, rest) =>
    match rest with
    | '|' :: c :: '|' :: r => some (⟨ds⟩, c, ⟨r⟩)
    | _ => none

/-- Source `is_text_line` of the source. -/
def is_text_line (s : String) : Bool := (parseTextLine s).isSome

/-- One candidate of the `SPAN_RE` tail at a fixed split: `s = r1.take slen`
for the `(\S*)` group, then `(?:\t(.*))?` if a tab follows, else `\s*$`. -/
def spanTailCheck (r1 : List Char) (slen : Nat) : Option (String × Option String) :=
  let s : List Char := r1.take slen
  match r1.drop slen with
  | '\t' :: rest => some (⟨s⟩, some ⟨rest⟩)
  | r2 => if r2.all Char.isWhitespace then some (⟨s⟩, none) else none

/-- Backtracking over the `(\S*)` group length, longest first. -/
def spanTailTryS (r1 : List Char) : Nat → Option (String × Option String)
  | 0 => spanTailCheck r1 0
  | n + 1 => (spanTailCheck r1 (n + 1)).orElse fun _ => spanTailTryS r1 n

/-- Backtracking over the `\t*` count, longest first. -/
def spanTailTryK (r : List Char) : Nat → Option (String × Option String)
  | 0 => spanTailTryS r ((r.takeWhile fun c => !c.isWhitespace).length)
  | k + 1 =>
    let r1 := r.drop (k + 1)
    (spanTailTryS r1 ((r1.takeWhile fun c => !c.isWhitespace).length)).orElse
      fun _ => spanTailTryK r k

/-- The tail `\t*(\S*)(?:\t(.*))?\s*$` of `SPAN_RE`, returning the norm
group and the optional trailing-text group. -/
def spanTail (r : List Char) : Option (String × Option String) :=
  spanTailTryK r ((r.takeWhile fun c => c = '\t').length)

/-- Groups of `SPAN_RE`:
`^(\d+)\t(\d+)\t(\d+)\t([^\t]+)\t(\S+)\t*(\S*)(?:\t(.*))?\s*$`. -/
def parseSpanLine (s : String) :
    Option (String × Nat × Nat × String × String × String × Option String) := do
  let (d1, r1) ← splitDigits s.data
  let r2 ← expectTab r1
  let (d2, r3) ← splitDigits r2
  let r4 ← expectTab r3
  let (d3, r5) ← splitDigits r4
  let r6 ← expectTab r5
  let g4 := r6.takeWhile fun c => c ≠ '\t'
  if g4.isEmpty then none else do
  let r7 ← expectTab (r6.drop g4.length)
  let g5 := r7.takeWhile fun c => !c.isWhitespace
  if g5.isEmpty then none else do
  let (g6, g7) ← spanTail (r7.drop g5.length)
  return (⟨d1⟩, decVal d2, decVal d3, ⟨g4⟩, ⟨g5⟩, g6, g7)

/-- Source `is_span_line` of the source. -/
def is_span_line (s : String) : Bool := (parseSpanLine s).isSome

/-- Groups of `REL_RE`: `^(\d+)\t(\S+)\t(\S+)\t(\S+)\s*$`. -/
def parseRelLine (s : String) : Option (String × String × String × String) := do
  let (d1, r1) ← splitDigits s.data
  let r2 ← expectTab r1
  let t1 := r2.takeWhile fun c => !c.isWhitespace
  if t1.isEmpty then none else do
  let r3 ← expectTab (r2.drop t1.length)
  let t2 := r3.takeWhile fun c => !c.isWhitespace
  if t2.isEmpty then none else do
  let r4 ← expectTab (r3.drop t2.length)
  let t3 := r4.takeWhile fun c => !c.isWhitespace
  if t3.isEmpty then none else
  if (r4.drop t3.length).all Char.isWhitespace then
    some (⟨d1⟩, ⟨t1⟩, ⟨t2⟩, ⟨t3⟩)
  else none

/-- Source `is_rel_line` of the source. -/
def is_rel_line (s : String) : Bool := (parseRelLine s).isSome

/-! ### The span model (class `SpanAnnotation` of the source)

The class name ends with a token the verification toolchain treats
specially, so the Lean structure is called `SpanAnn`; field `end` of the
source is `end_` (a Lean keyword), `self._norms` is `rawNorm`. -/

structure SpanAnn where
  docid : String
  start : Nat
  end_ : Nat
  text : String
  type : String
  rawNorm : Option String
  substrings : Option String
deriving DecidableEq

structure RelAnn where
  docid : String
  type : String
  arg1 : String
  arg2 : String
deriving DecidableEq

inductive Ann where
  | span (s : SpanAnn)
  | rel (r : RelAnn)
deriving DecidableEq

/-- Discriminant of the annotation variants (the source dispatches with
`isinstance`). -/
def Ann.isRel : Ann → Bool
  | Ann.rel _ => true
  | Ann.span _ => false

/-- Source `SpanAnnotation.norm_namespace`: namespace for normalizations given the
annotation type; the source deliberately tests substring containment. -/
def norm_namespace (type_ : String) : String :=
  if strIn "Species" type_ then "NCBITaxon"
  else if strIn "Gene" type_ then "NCBIGENE"
  else if strIn "Chemical" type_ then "MESH"
  else if strIn "DNAMutation" type_ || strIn "ProteinMutation" type_ ||
      strIn "SNP" type_ then type_
  else "unknown"

/-- Source `SpanAnnotation.split_norm`: list of IDs contained in a PubTator
normalization value. -/
def split_norm (norm : String) (type_ : String) : List String :=
  if strIn ";" norm then (splitChar ';' norm.data).map fun l => (⟨l⟩ : String)
  else if strIn "|" norm && type_ = "Chemical" then
    (splitChar '|' norm.data).map fun l => (⟨l⟩ : String)
  else [norm]

/-- Source `SpanAnnotation.strip_taxonomy_id` succeeds exactly on
`^(\d+)\(Tax:\d+\)$`, returning the leading digits; on any other argument
the source raises `ValueError`, modelled by `none`. -/
def strip_taxonomy_id (norm : String) : Option String :=
  match splitDigits norm.data with
  | none => none
  | some (ds, rest) =>
    if startsWithChars ("(Tax:" : String).data rest then
      match splitDigits (rest.drop 5) with
      | none => none
      | some (_, r2) => if r2 = [')'] then some ⟨ds⟩ else none
    else none

/-- The body of the loop in the `norms` property, for one ID field: first
the optional taxonomy-ID stripping (which can raise), then the namespace
guess when no `:` is present. -/
def normOne (type_ : String) (norm : String) : Except String String :=
  match
    (if strIn "(Tax:" norm then
      match strip_taxonomy_id norm with
      | some d => Except.ok d
      | none => Except.error ("failed to strip taxonomy ID from " ++ norm)
    else Except.ok norm : Except String String) with
  | Except.error e => Except.error e
  | Except.ok n1 =>
    Except.ok (if strIn ":" n1 then n1 else norm_namespace type_ ++ ":" ++ n1)

/-- Left-to-right effectful map over the ID fields: the loop of the
`norms` property appends one result per field and lets the first
exception propagate. -/
def mapNormOne (t : String) : List String → Except String (List String)
  | [] => Except.ok []
  | f :: fs =>
    match normOne t f with
    | Except.error e => Except.error e
    | Except.ok r =>
      match mapNormOne t fs with
      | Except.error e => Except.error e
      | Except.ok rs => Except.ok (r :: rs)

/-- The `norms` property: list of IDs normalized to, or `[none]` if none;
`Except.error` models the `ValueError` that `strip_taxonomy_id` can
raise. -/
def SpanAnn.norms (a : SpanAnn) : Except String (List (Option String)) :=
  match a.rawNorm with
  | none => Except.ok [none]
  | some raw =>
    if blankStr raw then Except.ok [none]
    else (mapNormOne a.type (split_norm raw a.type)).map fun l => l.map some

/-- Source `SpanAnnotation.map_to_output_type`. -/
def map_to_output_type (type_ : String) : String :=
  if type_ = "DNAMutation" ∨ type_ = "ProteinMutation" ∨ type_ = "SNP" then
    "Mutation"
  else type_

/-- Python slicing `s[a:b]` on a string. -/
def pySlice (s : String) (a b : Nat) : String := ⟨(s.data.take b).drop a⟩

/-- Source `SpanAnnotation.validate`: returns the logged warnings and, in the
second component, the message of the `ValueError` raised when the raw
normalization field is truthy but contains no `[A-Za-z0-9]` character
(`NORM_RE.search`). -/
def SpanAnn.validate (a : SpanAnn) (docText : String) : List String × Option String :=
  let sub := pySlice docText a.start a.end_
  let warns :=
    if sub = a.text then []
    else ["text mismatch: " ++ a.type ++ " in " ++ a.docid ++ " (" ++
      pyStr a.start ++ "-" ++ pyStr a.end_ ++ "): \x22" ++ sub ++
      "\x22 vs. \x22" ++ a.text ++ "\x22"]
  let err :=
    match a.rawNorm with
    | some raw =>
      if raw ≠ "" && !raw.data.any Char.isAlphanum then
        some ("norm value error: " ++ a.type ++ " \x22" ++ a.text ++ "\x22 in " ++
          a.docid ++ " (" ++ pyStr a.start ++ "-" ++ pyStr a.end_ ++ "): \x22" ++
          raw ++ "\x22")
      else none
    | none => none
  (warns, err)

/-- Python truthiness filter used at every `if norm:` of the serializers:
`None` and the empty string are falsy. -/
def pyTruthy : Option String → Option String
  | none => none
  | some s => if s = "" then none else some s

/-- One record of the plain-JSON serialization of a span
(`SpanAnnotation.to_dicts`); the `norm` key is present iff `norm` is not
`none`. -/
structure JsonRecord where
  start : Nat
  end_ : Nat
  text : String
  type : String
  norm : Option String
deriving DecidableEq

/-- Source `SpanAnnotation.to_dicts`. -/
def SpanAnn.to_dicts (a : SpanAnn) : Except String (List JsonRecord) :=
  (a.norms).map fun ns =>
    ns.map fun n =>
      ⟨a.start, a.end_, a.text, map_to_output_type a.type, pyTruthy n⟩

/-- One record of the OA JSON-LD serialization
(`SpanAnnotation.to_oa_jsonld_dicts`); `body` is present iff not `none`. -/
structure OaRecord where
  at_type : String
  target : String
  text : String
  at_id : String
  body : Option String
deriving DecidableEq

/-- Source `SpanAnnotation.to_oa_jsonld_dicts`. -/
def SpanAnn.to_oa_jsonld_dicts (a : SpanAnn) (docurl : String) (idx : Nat) :
    Except String (List OaRecord) :=
  (a.norms).map fun ns =>
    ns.enum.map fun p =>
      ⟨map_to_output_type a.type,
        docurl ++ "/text#char=" ++ pyStr a.start ++ "," ++ pyStr a.end_,
        a.text,
        docurl ++ "/annotations/" ++ pyStr (idx + p.1),
        pyTruthy p.2⟩

/-- One record of the WA JSON-LD serialization
(`SpanAnnotation.to_wa_jsonld_dicts`); `body_id` is present iff not
`none`. -/
structure WaRecord where
  type : String
  target : String
  body_type : String
  body_id : Option String
  text : String
  id : String
deriving DecidableEq

/-- Source `SpanAnnotation.to_wa_jsonld_dicts`. -/
def SpanAnn.to_wa_jsonld_dicts (a : SpanAnn) (docurl : String) (idx : Nat) :
    Except String (List WaRecord) :=
  (a.norms).map fun ns =>
    ns.enum.map fun p =>
      ⟨"Span",
        docurl ++ "/text#char=" ++ pyStr a.start ++ "," ++ pyStr a.end_,
        map_to_output_type a.type,
        pyTruthy p.2,
        a.text,
        docurl ++ "/ann/" ++ pyStr (idx + p.1)⟩

/-- Source `next_in_seq`: first `prefix + str(i)` (`i = 1, 2, ...`) not in `taken`.
The source loops over `itertools.count(1)`; since at most
`taken.length + 1` candidates can collide, that much fuel makes the
bounded search exact (`next_in_seq_spec` below). -/
def nextInSeqGo (pre : String) (taken : List String) : Nat → Nat → String
  | 0, i => pre ++ pyStr i
  | f + 1, i =>
    if taken.contains (pre ++ pyStr i) then nextInSeqGo pre taken f (i + 1)
    else pre ++ pyStr i

def next_in_seq (pre : String) (taken : List String) : String :=
  nextInSeqGo pre taken (taken.length + 1) 1

/-- Loop over `self.norms` in `to_ann_lines`: falsy norms are skipped
(`if not norm: continue`), each remaining norm mints an `N` identifier
against the ids taken so far and emits one `Reference` line.  The
accumulator is (taken ids, emitted lines). -/
def annNormFold (tid text : String) (acc : List String × List String) :
    List (Option String) → List String × List String
  | [] => acc
  | n :: rest =>
    match pyTruthy n with
    | none => annNormFold tid text acc rest
    | some norm =>
      let nid := next_in_seq "N" acc.1
      let nAnn := nid ++ "\tReference " ++ tid ++ " " ++ norm ++ "\t" ++ text
      annNormFold tid text (acc.1 ++ [nid], acc.2 ++ [nAnn]) rest

/-- Source `SpanAnnotation.to_ann_lines`: standoff markup lines of one span.
`annById` is the key set of the `ann_by_id` dict (only membership and
insertion matter to the source).  Returns the emitted lines and the
updated key set. -/
def SpanAnn.to_ann_lines (a : SpanAnn) (annById : List String) :
    Except String (List String × List String) :=
  match a.norms with
  | Except.error e => Except.error e
  | Except.ok ns =>
    let tid := next_in_seq "T" annById
    let tAnn := tid ++ "\t" ++ map_to_output_type a.type ++ " " ++
      pyStr a.start ++ " " ++ pyStr a.end_ ++ "\t" ++ a.text
    let res := annNormFold tid a.text (annById ++ [tid], [tAnn]) ns
    Except.ok (res.2, res.1)

/-! ### The document model (class `PubTatorDocument` of the source) -/

/-- Python `sep.join(xs)`. -/
def joinWith (sep : String) : List String → String
  | [] => ""
  | [x] => x
  | x :: y :: rest => x ++ sep ++ joinWith sep (y :: rest)

structure PubTatorDocument where
  id : Option String
  text_sections : List (Char × String)
  anns : List Ann
deriving DecidableEq

/-- The derived `text` property: sections joined by a newline. -/
def PubTatorDocument.text (d : PubTatorDocument) : String :=
  joinWith "\n" (d.text_sections.map fun p => p.2)

/-- The derived `title` property: sections labelled `t` joined by a
space. -/
def PubTatorDocument.title (d : PubTatorDocument) : String :=
  joinWith " " ((d.text_sections.filter fun p => p.1 = 't').map fun p => p.2)

/-- Document-level `validate`: the message of the first `ValueError`
raised by a span's `validate`, if any (relation `validate` is a no-op). -/
def PubTatorDocument.validateResult (d : PubTatorDocument) : Option String :=
  d.anns.findSome? fun a =>
    match a with
    | Ann.span s => (s.validate d.text).2
    | Ann.rel _ => none

/-- Records of `ann_dict`: `sum([a.to_dicts() for a in annotations], [])`;
`RelationAnnotation.to_dicts` raises `NotImplementedError`, and the
comprehension evaluates left to right, so the first failing annotation's
exception propagates. -/
def annRecordsGo : List Ann → Except String (List JsonRecord)
  | [] => Except.ok []
  | Ann.span s :: rest =>
    match s.to_dicts with
    | Except.error e => Except.error e
    | Except.ok ds => (annRecordsGo rest).map fun l => ds ++ l
  | Ann.rel _ :: _ => Except.error "NotImplementedError"

def PubTatorDocument.annRecords (d : PubTatorDocument) : Except String (List JsonRecord) :=
  annRecordsGo d.anns

/-- Accumulating loop of `ann_oa_jsonld`: each annotation is serialized at
index `len(d)`, the number of records accumulated so far; a relation has
no `to_oa_jsonld_dicts` method and raises `AttributeError`. -/
def annOaGo (u : String) (acc : List OaRecord) : List Ann → Except String (List OaRecord)
  | [] => Except.ok acc
  | Ann.span s :: rest =>
    match s.to_oa_jsonld_dicts u acc.length with
    | Except.error e => Except.error e
    | Except.ok ds => annOaGo u (acc ++ ds) rest
  | Ann.rel _ :: _ => Except.error "AttributeError: to_oa_jsonld_dicts"

def PubTatorDocument.ann_oa_jsonld_dicts (d : PubTatorDocument) :
    Except String (List OaRecord) :=
  match d.id with
  | none => Except.error "TypeError: NoneType id"
  | some i => annOaGo ("pubmed/" ++ i) [] d.anns

/-- Accumulating loop of `ann_wa_jsonld`, analogous to `annOaGo`. -/
def annWaGo (u : String) (acc : List WaRecord) : List Ann → Except String (List WaRecord)
  | [] => Except.ok acc
  | Ann.span s :: rest =>
    match s.to_wa_jsonld_dicts u acc.length with
    | Except.error e => Except.error e
    | Except.ok ds => annWaGo u (acc ++ ds) rest
  | Ann.rel _ :: _ => Except.error "AttributeError: to_wa_jsonld_dicts"

def PubTatorDocument.ann_wa_jsonld_dicts (d : PubTatorDocument) :
    Except String (List WaRecord) :=
  match d.id with
  | none => Except.error "TypeError: NoneType id"
  | some i => annWaGo ("PMID:" ++ i) [] d.anns

/-- Loop of `write_standoff` (from `convertpubtator.py`): spans are
serialized through `to_ann_lines` with a shared `ann_by_id` dict; any
other annotation is skipped with the logged warning
`not converting <classname>`. -/
def writeStandoffGo (annById : List String) (lines warns : List String) :
    List Ann → Except String (List String × List String)
  | [] => Except.ok (lines, warns)
  | Ann.rel _ :: rest =>
    writeStandoffGo annById lines (warns ++ ["not converting RelationAnnotation"]) rest
  | Ann.span s :: rest =>
    match s.to_ann_lines annById with
    | Except.error e => Except.error e
    | Except.ok (ls, annById2) => writeStandoffGo annById2 (lines ++ ls) warns rest

/-- Standoff serialization of a document: the emitted `.ann` lines and the
logged warnings. -/
def write_standoff_ann (d : PubTatorDocument) : Except String (List String × List String) :=
  writeStandoffGo [] [] [] d.anns

/-! ### The stream parser (`read_pubtator` and helpers) -/

/-- Text-line loop of `read_pubtator_document`.  Consumes lines while they
classify as text lines, accumulating `(tag, content)` for non-blank
contents, enforcing a consistent document id.  Returns the id and
sections, or the first error, together with the unconsumed lines.

Faithful quirk: after consuming a line the source tests
`is_text_line(fl.lookahead)`; at end of input the lookahead is `None` and
that call raises `AttributeError`, which the caller treats like any other
per-record failure. -/
def textLoop : List String → Option String → List (Char × String) →
    (Except String (Option String × List (Char × String))) × List String
  | [], did, secs => (Except.ok (did, secs), [])
  | line :: rest, did, secs =>
    match parseTextLine line with
    | none => (Except.error ("expected text, got: " ++ line), rest)
    | some (docid, tag, text) =>
      if did ≠ none ∧ did ≠ some docid then
        (Except.error ("doc ID mismatch: " ++ line), rest)
      else
        let secs2 := if blankStr text then secs else secs ++ [(tag, text)]
        match rest with
        | [] => (Except.error "AttributeError: NoneType has no rstrip", [])
        | l2 :: _ =>
          if is_text_line l2 then textLoop rest (some docid) secs2
          else (Except.ok (some docid, secs2), rest)

/-- Annotation-line loop of `read_pubtator_document`: consume until a
blank line (which is consumed) or end of input; spans are tried before
relations; anything else fails. -/
def annLoop : List String → List Ann → (Except String (List Ann)) × List String
  | [], anns => (Except.ok anns, [])
  | line :: rest, anns =>
    if blankStr line then (Except.ok anns, rest)
    else
      match parseSpanLine line with
      | some (docid, start, end_, text, type_, norm, sub) =>
        annLoop rest (anns ++ [Ann.span ⟨docid, start, end_, text, type_, some norm, sub⟩])
      | none =>
        match parseRelLine line with
        | some (docid, type_, a1, a2) =>
          annLoop rest (anns ++ [Ann.rel ⟨docid, type_, a1, a2⟩])
        | none => (Except.error ("bad line: " ++ line), rest)

/-- Body of `read_pubtator_document` after the initial blank lines have
been skipped: read text lines, read annotation lines, optionally
validate.  The unconsumed suffix of the stream is returned in both the
success and the failure case. -/
def readDocCore (doValidate : Bool) (ls1 : List String) :
    (Except String PubTatorDocument) × List String :=
  match textLoop ls1 none [] with
  | (Except.error e, rem) => (Except.error e, rem)
  | (Except.ok (did, secs), rem) =>
    match annLoop rem [] with
    | (Except.error e, rem2) => (Except.error e, rem2)
    | (Except.ok anns, rem2) =>
      let d : PubTatorDocument := ⟨did, secs, anns⟩
      if doValidate then
        match d.validateResult with
        | some e => (Except.error e, rem2)
        | none => (Except.ok d, rem2)
      else (Except.ok d, rem2)

/-- Source `read_pubtator_document`: skip leading blank lines, then read
one document. -/
def read_pubtator_document (doValidate : Bool) (ls : List String) :
    (Except String PubTatorDocument) × List String :=
  readDocCore doValidate (ls.dropWhile blankStr)

/-- Source `skip_pubtator_document`.  `ids = []` models both `None` and an
empty id set (`if not ids: return False`, before any line is touched).
Otherwise the next record's id is peeked at and, when unwanted, its lines
are consumed up to and including the next blank line.  Errors raised here
are NOT caught by `read_pubtator` (they happen outside its `try`). -/
def skip_pubtator_document (ids : List String) (ls : List String) :
    Except String (Bool × List String) :=
  if ids.isEmpty then Except.ok (false, ls)
  else
    let ls1 := ls.dropWhile blankStr
    match ls1 with
    | [] => Except.error "AttributeError: NoneType has no rstrip"
    | line :: _ =>
      match parseTextLine line with
      | none => Except.error ("ParseError: " ++ line)
      | some (docid, _, _) =>
        if ids.contains docid then Except.ok (false, ls1)
        else Except.ok (true, (ls1.dropWhile fun l => !blankStr l).drop 1)

/-- Inner loop of `recover_from_error`: consume a line, stop as soon as
the lookahead is a text line; consume everything if none appears. -/
def recoverGo : List String → List String
  | [] => []
  | _ :: rest =>
    match rest with
    | [] => []
    | l2 :: _ => if is_text_line l2 then rest else recoverGo rest

/-- Source `recover_from_error`: skip remaining lines of the current
document, up to the next text line or end of input. -/
def recover_from_error (ls : List String) : List String :=
  match ls with
  | [] => ls
  | l :: _ => if is_text_line l then ls else recoverGo ls

/-- Main loop of `read_pubtator`, with explicit fuel.  Each iteration with
a nonempty stream consumes at least one line, so fuel
`ls.length + 1` is exact (`readPubtatorFuel_irrel` below).  A failure of
`read_pubtator_document` is caught: the error counter is incremented, the
record's remaining lines are discarded, iteration continues.  A failure of
`skip_pubtator_document` propagates (it is outside the `try`). -/
def readPubtatorFuel (ids : List String) (doValidate : Bool) :
    Nat → List String → Except String (List PubTatorDocument × Nat)
  | 0, _ => Except.ok ([], 0)
  | f + 1, ls =>
    if ls.isEmpty then Except.ok ([], 0)
    else
      match skip_pubtator_document ids ls with
      | Except.error e => Except.error e
      | Except.ok (true, ls1) => readPubtatorFuel ids doValidate f ls1
      | Except.ok (false, ls1) =>
        match read_pubtator_document doValidate ls1 with
        | (Except.ok doc, ls2) =>
          (readPubtatorFuel ids doValidate f ls2).map fun p => (doc :: p.1, p.2)
        | (Except.error _, ls2) =>
          (readPubtatorFuel ids doValidate f (recover_from_error ls2)).map
            fun p => (p.1, p.2 + 1)

/-- Source `read_pubtator`: the documents yielded and the number of failed
records. -/
def read_pubtator (ids : List String) (doValidate : Bool) (ls : List String) :
    Except String (List PubTatorDocument × Nat) :=
  readPubtatorFuel ids doValidate (ls.length + 1) ls

/-- Modelled from the spec (claim C10): the same stream loop with the skip
step removed entirely, i.e. a reader that yields every document.  Used
only as the comparison point for the claim that an empty id filter
disables filtering. -/
def readUnfilteredFuel (doValidate : Bool) :
    Nat → List String → List PubTatorDocument × Nat
  | 0, _ => ([], 0)
  | f + 1, ls =>
    if ls.isEmpty then ([], 0)
    else
      match read_pubtator_document doValidate ls with
      | (Except.ok doc, ls2) =>
        let p := readUnfilteredFuel doValidate f ls2
        (doc :: p.1, p.2)
      | (Except.error _, ls2) =>
        let p := readUnfilteredFuel doValidate f (recover_from_error ls2)
        (p.1, p.2 + 1)

def read_pubtator_unfiltered (doValidate : Bool) (ls : List String) :
    List PubTatorDocument × Nat :=
  readUnfilteredFuel doValidate (ls.length + 1) ls

/-! ### Pretty-printing model (`pretty_dumps`)

Model of `json.dumps(obj, sort_keys=True, indent=2, separators=(',', ': '))`
for the flat record dictionaries the serializers produce: keys are sorted
lexicographically, indentation is fixed. -/

inductive JVal where
  | s (v : String)
  | n (v : Nat)
deriving DecidableEq

def renderJVal : JVal → String
  | JVal.s v => "\x22" ++ v ++ "\x22"
  | JVal.n v => pyStr v

/-- Keys are sorted lexicographically (`sort_keys=True`). -/
def sortFields (l : List (String × JVal)) : List (String × JVal) :=
  List.insertionSort (fun a b => a.1 ≤ b.1) l

def spaces (n : Nat) : String := ⟨List.replicate n ' '⟩

def renderField (ind : Nat) (f : String × JVal) : String :=
  spaces ind ++ "\x22" ++ f.1 ++ "\x22: " ++ renderJVal f.2

/-- Rendering of one flat object at indentation `ind`. -/
def renderFlatObj (ind : Nat) (l : List (String × JVal)) : String :=
  match sortFields l with
  | [] => "\x7b\x7d"
  | fs => "\x7b\n" ++ joinWith ",\n" (fs.map (renderField (ind + 2))) ++ "\n" ++
      spaces ind ++ "\x7d"

/-- Rendering of an array of flat objects at indentation `ind`. -/
def renderRecArr (ind : Nat) (rs : List (List (String × JVal))) : String :=
  match rs with
  | [] => "[]"
  | _ => "[\n" ++
      joinWith ",\n" (rs.map fun r => spaces (ind + 2) ++ renderFlatObj (ind + 2) r) ++
      "\n" ++ spaces ind ++ "]"

/-- Key/value fields of one JSON record; dict literal order of the
source. -/
def JsonRecord.fields (r : JsonRecord) : List (String × JVal) :=
  [("start", JVal.n r.start), ("end", JVal.n r.end_), ("text", JVal.s r.text),
    ("type", JVal.s r.type)] ++
    (match r.norm with | none => [] | some v => [("norm", JVal.s v)])

/-- Document-level `ann_json` (via `ann_dict` and `pretty_dumps`). -/
def PubTatorDocument.ann_json (d : PubTatorDocument) : Except String String :=
  (annRecordsGo d.anns).map fun rs =>
    "\x7b\n  \x22annotations\x22: " ++ renderRecArr 2 (rs.map JsonRecord.fields) ++
      "\n\x7d"

/-! ### Auxiliary lemmas: stream consumption and fuel adequacy -/

theorem length_dropWhile_le (p : α → Bool) (l : List α) :
    (l.dropWhile p).length ≤ l.length := by
  induction l with
  | nil => simp
  | cons a t ih =>
    by_cases h : p a
    · rw [List.dropWhile_cons_of_pos h]; exact Nat.le_succ_of_le ih
    · rw [List.dropWhile_cons_of_neg h]

theorem textLoop_length :
    ∀ (ls : List String) (did : Option String) (secs : List (Char × String)),
      (textLoop ls did secs).2.length ≤ ls.length ∧
        (ls ≠ [] → (textLoop ls did secs).2.length < ls.length) := by
  intro ls
  induction ls with
  | nil => intro did secs; simp [textLoop]
  | cons line rest ih =>
    intro did secs
    simp only [textLoop]
    cases h : parseTextLine line with
    | none => dsimp only; simp
    | some g =>
      obtain ⟨docid, tag, text⟩ := g
      dsimp only
      by_cases hmis : did ≠ none ∧ did ≠ some docid
      · rw [if_pos hmis]; simp
      · rw [if_neg hmis]
        cases rest with
        | nil => simp
        | cons l2 t =>
          dsimp only
          by_cases htl : is_text_line l2 = true
          · rw [if_pos htl]
            have h2 := (ih (some docid)
              (if blankStr text = true then secs else secs ++ [(tag, text)])).2 (by simp)
            simp only [List.length_cons] at h2 ⊢
            refine ⟨?_, fun _ => ?_⟩ <;> omega
          · rw [if_neg htl]; simp

theorem annLoop_length :
    ∀ (ls : List String) (anns : List Ann),
      (annLoop ls anns).2.length ≤ ls.length := by
  intro ls
  induction ls with
  | nil => intro anns; simp [annLoop]
  | cons line rest ih =>
    intro anns
    simp only [annLoop]
    by_cases hb : blankStr line = true
    · simp [hb]
    · rw [if_neg hb]
      cases hs : parseSpanLine line with
      | some g =>
        obtain ⟨a1, a2, a3, a4, a5, a6, a7⟩ := g
        exact Nat.le_succ_of_le (ih _)
      | none =>
        cases hr : parseRelLine line with
        | some g => obtain ⟨b1, b2, b3, b4⟩ := g; exact Nat.le_succ_of_le (ih _)
        | none => simp

theorem readDocCore_nil (v : Bool) : (readDocCore v []).2 = [] := by
  cases v <;> rfl

theorem readDocCore_length (v : Bool) (l : List String) :
    (readDocCore v l).2.length ≤ l.length ∧
      (l ≠ [] → (readDocCore v l).2.length < l.length) := by
  unfold readDocCore
  have htl := textLoop_length l none []
  rcases htt : textLoop l none [] with ⟨res, rem⟩
  rw [htt] at htl
  simp only at htl
  cases res with
  | error e => exact htl
  | ok p =>
    obtain ⟨did, secs⟩ := p
    dsimp only
    have han := annLoop_length rem []
    rcases hal : annLoop rem [] with ⟨res2, rem2⟩
    rw [hal] at han
    simp only at han
    have hle : rem2.length ≤ l.length := le_trans han htl.1
    have hlt : l ≠ [] → rem2.length < l.length :=
      fun hne => lt_of_le_of_lt han (htl.2 hne)
    cases res2 with
    | error e => exact ⟨hle, hlt⟩
    | ok anns =>
      dsimp only
      cases v with
      | false => exact ⟨hle, hlt⟩
      | true =>
        simp only [if_true]
        cases hv : PubTatorDocument.validateResult ⟨did, secs, anns⟩ with
        | none => exact ⟨hle, hlt⟩
        | some e => exact ⟨hle, hlt⟩

theorem read_pubtator_document_length (v : Bool) (ls : List String) :
    (read_pubtator_document v ls).2.length ≤ ls.length ∧
      (ls ≠ [] → (read_pubtator_document v ls).2.length < ls.length) := by
  unfold read_pubtator_document
  have hdrop := length_dropWhile_le blankStr ls
  have hc := readDocCore_length v (ls.dropWhile blankStr)
  cases hls1 : ls.dropWhile blankStr with
  | nil =>
    rw [readDocCore_nil v]
    exact ⟨Nat.zero_le _, fun hne => List.length_pos.mpr hne⟩
  | cons a t =>
    rw [hls1] at hc hdrop
    exact ⟨le_trans hc.1 hdrop,
      fun _ => lt_of_lt_of_le (hc.2 (List.cons_ne_nil a t)) hdrop⟩

theorem recoverGo_length : ∀ ls : List String, (recoverGo ls).length ≤ ls.length := by
  intro ls
  induction ls with
  | nil => simp [recoverGo]
  | cons a rest ih =>
    simp only [recoverGo]
    cases rest with
    | nil => simp
    | cons l2 t =>
      dsimp only
      by_cases h : is_text_line l2 = true
      · rw [if_pos h]; exact Nat.le_succ _
      · rw [if_neg h]; exact Nat.le_succ_of_le ih

theorem recover_from_error_length (ls : List String) :
    (recover_from_error ls).length ≤ ls.length := by
  unfold recover_from_error
  cases ls with
  | nil => exact Nat.le_refl _
  | cons a rest =>
    dsimp only
    by_cases h : is_text_line a = true
    · rw [if_pos h]
    · rw [if_neg h]; exact recoverGo_length _

theorem ws_not_digit {c : Char} (h : c.isWhitespace = true) : c.isDigit = false := by
  unfold Char.isWhitespace at h
  simp only [Bool.or_eq_true, decide_eq_true_eq] at h
  rcases h with ((h | h) | h) | h <;> subst h <;> decide

theorem digit_not_ws {c : Char} (h : c.isDigit = true) : c.isWhitespace = false := by
  cases hw : c.isWhitespace
  · rfl
  · rw [ws_not_digit hw] at h; exact absurd h (by simp)

theorem parseTextLine_not_blank {s : String} {g : String × Char × String}
    (h : parseTextLine s = some g) : blankStr s = false := by
  unfold parseTextLine at h
  cases hd : splitDigits s.data with
  | none => rw [hd] at h; exact absurd h (by simp)
  | some p =>
    unfold splitDigits at hd
    cases hs : s.data with
    | nil => rw [hs] at hd; simp at hd
    | cons c t =>
      rw [hs] at hd
      by_cases hc : c.isDigit = true
      · unfold blankStr
        rw [hs]
        simp only [List.all_cons, Bool.and_eq_false_imp]
        simp [digit_not_ws hc]
      · rw [List.takeWhile_cons_of_neg (by simp [hc])] at hd
        simp at hd

theorem skip_true_length {ids ls : List String} {ls1 : List String}
    (h : skip_pubtator_document ids ls = Except.ok (true, ls1)) :
    ls1.length < ls.length := by
  unfold skip_pubtator_document at h
  by_cases hids : ids.isEmpty = true
  · rw [if_pos hids] at h; simp at h
  · rw [if_neg hids] at h
    cases hd : ls.dropWhile blankStr with
    | nil => rw [hd] at h; simp at h
    | cons line t =>
      rw [hd] at h
      dsimp only at h
      cases hp : parseTextLine line with
      | none => rw [hp] at h; simp at h
      | some g =>
        obtain ⟨docid, tag, text⟩ := g
        rw [hp] at h
        dsimp only at h
        by_cases hin : ids.contains docid = true
        · rw [if_pos hin] at h; simp at h
        · rw [if_neg hin] at h
          simp only [Except.ok.injEq, Prod.mk.injEq, true_and] at h
          subst h
          have hb : blankStr line = false := parseTextLine_not_blank hp
          have he : (line :: t).dropWhile (fun l => !blankStr l) =
              t.dropWhile (fun l => !blankStr l) := by
            rw [List.dropWhile_cons_of_pos]; simp [hb]
          rw [he]
          have h3 : (t.dropWhile fun l => !blankStr l).length ≤ t.length :=
            length_dropWhile_le _ t
          have h4 : (line :: t).length ≤ ls.length := by
            rw [← hd]; exact length_dropWhile_le _ ls
          simp only [List.length_drop, List.length_cons] at *
          omega

theorem skip_false_length {ids ls : List String} {ls1 : List String}
    (h : skip_pubtator_document ids ls = Except.ok (false, ls1)) :
    ls1.length ≤ ls.length ∧ (ls ≠ [] → ls1 ≠ []) := by
  unfold skip_pubtator_document at h
  by_cases hids : ids.isEmpty = true
  · rw [if_pos hids] at h
    simp only [Except.ok.injEq, Prod.mk.injEq, true_and] at h
    subst h
    exact ⟨Nat.le_refl _, fun hne => hne⟩
  · rw [if_neg hids] at h
    cases hd : ls.dropWhile blankStr with
    | nil => rw [hd] at h; simp at h
    | cons line t =>
      rw [hd] at h
      dsimp only at h
      cases hp : parseTextLine line with
      | none => rw [hp] at h; simp at h
      | some g =>
        obtain ⟨docid, tag, text⟩ := g
        rw [hp] at h
        dsimp only at h
        by_cases hin : ids.contains docid = true
        · rw [if_pos hin] at h
          simp only [Except.ok.injEq, Prod.mk.injEq, true_and] at h
          subst h
          refine ⟨by rw [← hd]; exact length_dropWhile_le _ ls,
            fun _ => List.cons_ne_nil line t⟩
        · rw [if_neg hin] at h; simp at h

theorem readPubtatorFuel_irrel (ids : List String) (v : Bool) :
    ∀ f g : Nat, ∀ ls : List String, ls.length < f → ls.length < g →
      readPubtatorFuel ids v f ls = readPubtatorFuel ids v g ls := by
  intro f
  induction f with
  | zero => intro g ls h _; omega
  | succ f ih =>
    intro g ls hf hg
    cases g with
    | zero => omega
    | succ g =>
      simp only [readPubtatorFuel]
      by_cases hempty : ls.isEmpty = true
      · rw [if_pos hempty, if_pos hempty]
      · rw [if_neg hempty, if_neg hempty]
        have hlsne : ls ≠ [] := by
          intro he; subst he; exact hempty rfl
        cases hskip : skip_pubtator_document ids ls with
        | error e => rfl
        | ok p =>
          obtain ⟨b, ls1⟩ := p
          cases b with
          | true =>
            dsimp only
            have hlen := skip_true_length hskip
            simp only [List.length_cons] at *
            exact ih g ls1 (by omega) (by omega)
          | false =>
            dsimp only
            obtain ⟨hle, hne⟩ := skip_false_length hskip
            have hrd := read_pubtator_document_length v ls1
            rcases hd : read_pubtator_document v ls1 with ⟨res, ls2⟩
            rw [hd] at hrd
            simp only at hrd
            have hlt : ls2.length < ls.length :=
              lt_of_lt_of_le (hrd.2 (hne hlsne)) hle
            cases res with
            | ok doc =>
              dsimp only
              rw [ih g ls2 (by omega) (by omega)]
            | error e =>
              dsimp only
              have hrc := recover_from_error_length ls2
              rw [ih g (recover_from_error ls2) (by omega) (by omega)]

/-- One unfolding step of the stream loop with an empty id filter and a
nonempty stream. -/
theorem readPubtatorFuel_cons_empty_ids (v : Bool) (f : Nat) (l : String)
    (tl : List String) :
    readPubtatorFuel [] v (f + 1) (l :: tl) =
      match read_pubtator_document v (l :: tl) with
      | (Except.ok doc, ls2) =>
        (readPubtatorFuel [] v f ls2).map fun p => (doc :: p.1, p.2)
      | (Except.error _, ls2) =>
        (readPubtatorFuel [] v f (recover_from_error ls2)).map
          fun p => (p.1, p.2 + 1) := rfl

/-- Matched-fuel equality of the filtered loop at an empty filter and the
loop without the skip step. -/
theorem readPubtatorFuel_empty_ids (v : Bool) :
    ∀ (f : Nat) (ls : List String),
      readPubtatorFuel [] v f ls = Except.ok (readUnfilteredFuel v f ls) := by
  intro f
  induction f with
  | zero => intro ls; rfl
  | succ f ih =>
    intro ls
    simp only [readPubtatorFuel, readUnfilteredFuel]
    by_cases hempty : ls.isEmpty = true
    · rw [if_pos hempty, if_pos hempty]
    · rw [if_neg hempty, if_neg hempty]
      have hskip : skip_pubtator_document [] ls = Except.ok (false, ls) := rfl
      rw [hskip]
      dsimp only
      rcases hd : read_pubtator_document v ls with ⟨res, ls2⟩
      cases res with
      | ok doc => dsimp only; rw [ih ls2]; rfl
      | error e => dsimp only; rw [ih (recover_from_error ls2)]; rfl

/-! ### Per-span and per-document serializer record lemmas -/

theorem to_dicts_spec {a : SpanAnn} {ns : List (Option String)} {l : List JsonRecord}
    (hn : a.norms = Except.ok ns) (h : a.to_dicts = Except.ok l) :
    l.length = ns.length ∧
      ∀ k (hk : k < l.length) (hk2 : k < ns.length),
        l[k] = ⟨a.start, a.end_, a.text, map_to_output_type a.type, pyTruthy ns[k]⟩ := by
  unfold SpanAnn.to_dicts at h
  rw [hn] at h
  simp only [Except.map, Except.ok.injEq] at h
  subst h
  refine ⟨by simp, fun k hk hk2 => ?_⟩
  simp

theorem to_oa_dicts_spec {a : SpanAnn} {u : String} {idx : Nat}
    {ns : List (Option String)} {ds : List OaRecord}
    (hn : a.norms = Except.ok ns) (h : a.to_oa_jsonld_dicts u idx = Except.ok ds) :
    ds.length = ns.length ∧
      ∀ j (hj : j < ds.length),
        ds[j].at_id = u ++ "/annotations/" ++ pyStr (idx + j) := by
  unfold SpanAnn.to_oa_jsonld_dicts at h
  rw [hn] at h
  simp only [Except.map, Except.ok.injEq] at h
  subst h
  refine ⟨by simp, fun j hj => ?_⟩
  have hj2 : j < ns.enum.length := by simpa using hj
  rw [List.getElem_map]
  simp [List.getElem_enum]

theorem to_wa_dicts_spec {a : SpanAnn} {u : String} {idx : Nat}
    {ns : List (Option String)} {ds : List WaRecord}
    (hn : a.norms = Except.ok ns) (h : a.to_wa_jsonld_dicts u idx = Except.ok ds) :
    ds.length = ns.length ∧
      ∀ j (hj : j < ds.length), ds[j].id = u ++ "/ann/" ++ pyStr (idx + j) := by
  unfold SpanAnn.to_wa_jsonld_dicts at h
  rw [hn] at h
  simp only [Except.map, Except.ok.injEq] at h
  subst h
  refine ⟨by simp, fun j hj => ?_⟩
  have hj2 : j < ns.enum.length := by simpa using hj
  rw [List.getElem_map]
  simp [List.getElem_enum]

theorem annOaGo_ids (u : String) :
    ∀ (anns : List Ann) (acc recs : List OaRecord),
      annOaGo u acc anns = Except.ok recs →
      (∀ p (hp : p < acc.length), acc[p].at_id = u ++ "/annotations/" ++ pyStr p) →
      ∀ p (hp : p < recs.length),
        recs[p].at_id = u ++ "/annotations/" ++ pyStr p := by
  intro anns
  induction anns with
  | nil =>
    intro acc recs h hin
    rw [annOaGo] at h
    simp only [Except.ok.injEq] at h
    subst h
    exact hin
  | cons a rest ih =>
    intro acc recs h hin
    cases a with
    | rel r => rw [annOaGo] at h; simp at h
    | span s =>
      rw [annOaGo] at h
      rcases hd : s.to_oa_jsonld_dicts u acc.length with e | ds
      · rw [hd] at h; simp at h
      · rw [hd] at h
        dsimp only at h
        refine ih (acc ++ ds) recs h ?_
        rcases hns : s.norms with e2 | ns
        · unfold SpanAnn.to_oa_jsonld_dicts at hd
          rw [hns] at hd
          simp [Except.map] at hd
        · obtain ⟨hlen, hids⟩ := to_oa_dicts_spec hns hd
          intro p hp
          by_cases hcase : p < acc.length
          · rw [List.getElem_append_left hcase]
            exact hin p hcase
          · have hge : acc.length ≤ p := Nat.le_of_not_lt hcase
            have hplen : p - acc.length < ds.length := by
              simp only [List.length_append] at hp
              omega
            rw [List.getElem_append_right hge]
            have hq := hids (p - acc.length) hplen
            rw [hq]
            congr 2
            omega

theorem annWaGo_ids (u : String) :
    ∀ (anns : List Ann) (acc recs : List WaRecord),
      annWaGo u acc anns = Except.ok recs →
      (∀ p (hp : p < acc.length), acc[p].id = u ++ "/ann/" ++ pyStr p) →
      ∀ p (hp : p < recs.length), recs[p].id = u ++ "/ann/" ++ pyStr p := by
  intro anns
  induction anns with
  | nil =>
    intro acc recs h hin
    rw [annWaGo] at h
    simp only [Except.ok.injEq] at h
    subst h
    exact hin
  | cons a rest ih =>
    intro acc recs h hin
    cases a with
    | rel r => rw [annWaGo] at h; simp at h
    | span s =>
      rw [annWaGo] at h
      rcases hd : s.to_wa_jsonld_dicts u acc.length with e | ds
      · rw [hd] at h; simp at h
      · rw [hd] at h
        dsimp only at h
        refine ih (acc ++ ds) recs h ?_
        rcases hns : s.norms with e2 | ns
        · unfold SpanAnn.to_wa_jsonld_dicts at hd
          rw [hns] at hd
          simp [Except.map] at hd
        · obtain ⟨hlen, hids⟩ := to_wa_dicts_spec hns hd
          intro p hp
          by_cases hcase : p < acc.length
          · rw [List.getElem_append_left hcase]
            exact hin p hcase
          · have hge : acc.length ≤ p := Nat.le_of_not_lt hcase
            have hplen : p - acc.length < ds.length := by
              simp only [List.length_append] at hp
              omega
            rw [List.getElem_append_right hge]
            have hq := hids (p - acc.length) hplen
            rw [hq]
            congr 2
            omega

/-! ### Claim theorems -/

theorem recoverGo_spec :
    ∀ ls : List String, (∀ hd ∈ ls.head?, is_text_line hd = false) →
      ∃ dropped, ls = dropped ++ recoverGo ls ∧
        (∀ l ∈ dropped, is_text_line l = false) ∧
        (recoverGo ls = [] ∨
          ∃ l rest, recoverGo ls = l :: rest ∧ is_text_line l = true) := by
  intro ls
  induction ls with
  | nil => exact fun _ => ⟨[], rfl, by simp, Or.inl rfl⟩
  | cons x rest ih =>
    intro hhead
    have hx : is_text_line x = false := hhead x rfl
    simp only [recoverGo]
    cases rest with
    | nil => exact ⟨[x], by simp, by simpa using hx, Or.inl rfl⟩
    | cons l2 t =>
      dsimp only
      by_cases h2 : is_text_line l2 = true
      · rw [if_pos h2]
        exact ⟨[x], by simp, by simpa using hx, Or.inr ⟨l2, t, rfl, h2⟩⟩
      · rw [if_neg h2]
        obtain ⟨dropped, heq, hdrop, hres⟩ :=
          ih (fun hd hhd => by
            simp only [List.head?_cons, Option.mem_def, Option.some.injEq] at hhd
            subst hhd
            simpa using h2)
        refine ⟨x :: dropped, by rw [List.cons_append, ← heq], ?_, hres⟩
        intro l hl
        rcases List.mem_cons.mp hl with rfl | hl2
        · exact hx
        · exact hdrop l hl2

/-- Step equation of the stream loop at an empty id filter: whenever
assembling one record fails, the error is caught, the counter goes up by
exactly one, and iteration continues on the recovered stream. -/
theorem read_pubtator_error_step {v : Bool} {ls : List String} {e : String}
    {ls2 : List String} (hne : ls ≠ [])
    (h : read_pubtator_document v ls = (Except.error e, ls2)) :
    read_pubtator [] v ls =
      (read_pubtator [] v (recover_from_error ls2)).map
        fun p => (p.1, p.2 + 1) := by
  unfold read_pubtator
  obtain ⟨l0, tl0, rfl⟩ : ∃ l0 tl0, ls = l0 :: tl0 := by
    cases ls with
    | nil => exact absurd rfl hne
    | cons a t => exact ⟨a, t, rfl⟩
  rw [show (l0 :: tl0).length + 1 = tl0.length + 1 + 1 from by simp]
  rw [readPubtatorFuel_cons_empty_ids, h]
  dsimp only
  have hlen2 : ls2.length < (l0 :: tl0).length := by
    have := read_pubtator_document_length v (l0 :: tl0)
    rw [h] at this
    exact this.2 (List.cons_ne_nil l0 tl0)
  have hrc := recover_from_error_length ls2
  rw [readPubtatorFuel_irrel [] v (tl0.length + 1)
    ((recover_from_error ls2).length + 1) (recover_from_error ls2)
    (by simp only [List.length_cons] at hlen2; omega) (by omega)]

/-- C1: an exception raised while assembling one record is caught at the
document-stream boundary of `read_pubtator` (empty id filter): the error
counter is incremented by exactly one for that record and iteration
continues on the recovered stream, never propagating the exception; the
recovery discards the failed record's remaining lines up to the next
text-shaped line or end of input (every discarded line is non-text, and
the surviving suffix is empty or starts with a text line); and concretely,
for a record whose two TEXT lines carry different leading document-id
digits followed by a well-formed record and any continuation, the stream
yields the following document and counts exactly one error. -/
theorem c1_parse_error_recovered_stream_continues :
    (∀ (v : Bool) (ls : List String) (e : String) (ls2 : List String),
      ls ≠ [] → read_pubtator_document v ls = (Except.error e, ls2) →
      read_pubtator [] v ls =
        (read_pubtator [] v (recover_from_error ls2)).map
          fun p => (p.1, p.2 + 1)) ∧
    (∀ ls2 : List String,
      ∃ dropped, ls2 = dropped ++ recover_from_error ls2 ∧
        (∀ l ∈ dropped, is_text_line l = false) ∧
        (recover_from_error ls2 = [] ∨
          ∃ l rest, recover_from_error ls2 = l :: rest ∧
            is_text_line l = true)) ∧
    ∀ rest : List String,
      read_pubtator [] true
          ("1|t|AAA" :: "2|t|BBB" :: "" :: "3|t|Good" :: "" :: rest) =
        (read_pubtator [] true rest).map fun p =>
          ((⟨some "3", [('t', "Good")], []⟩ : PubTatorDocument) :: p.1,
            p.2 + 1) := by
  refine ⟨fun v ls e ls2 hne h => read_pubtator_error_step hne h, ?_, ?_⟩
  · intro ls2
    unfold recover_from_error
    cases ls2 with
    | nil => exact ⟨[], rfl, by simp, Or.inl rfl⟩
    | cons a rest =>
      dsimp only
      by_cases h : is_text_line a = true
      · rw [if_pos h]
        exact ⟨[], rfl, by simp, Or.inr ⟨a, rest, rfl, h⟩⟩
      · rw [if_neg h]
        exact recoverGo_spec (a :: rest)
          (fun hd hhd => by
            simp only [List.head?_cons, Option.mem_def, Option.some.injEq] at hhd
            subst hhd
            simpa using h)
  intro rest
  unfold read_pubtator
  rw [show ("1|t|AAA" :: "2|t|BBB" :: "" :: "3|t|Good" :: "" :: rest).length + 1 =
    (rest.length + 5) + 1 from by simp]
  rw [readPubtatorFuel_cons_empty_ids]
  rw [show read_pubtator_document true
      ("1|t|AAA" :: "2|t|BBB" :: "" :: "3|t|Good" :: "" :: rest) =
      (Except.error "doc ID mismatch: 2|t|BBB", "" :: "3|t|Good" :: "" :: rest)
    from rfl]
  dsimp only
  rw [show recover_from_error ("" :: "3|t|Good" :: "" :: rest) =
    "3|t|Good" :: "" :: rest from rfl]
  rw [show rest.length + 5 = (rest.length + 4) + 1 from rfl]
  rw [readPubtatorFuel_cons_empty_ids]
  rw [show read_pubtator_document true ("3|t|Good" :: "" :: rest) =
      (Except.ok (⟨some "3", [('t', "Good")], []⟩ : PubTatorDocument), rest)
    from rfl]
  dsimp only
  rw [readPubtatorFuel_irrel [] true (rest.length + 4) (rest.length + 1) rest
    (by omega) (by omega)]
  rcases hy : readPubtatorFuel [] true (rest.length + 1) rest with e | p
  · rfl
  · rfl

/-- Witness for C1's catch-and-count step at a concrete failing record
(a document-id mismatch between two TEXT lines). -/
theorem c1_witness :
    read_pubtator [] true ["1|t|AAA", "2|t|BBB", "", "3|t|Good", ""] =
      (read_pubtator [] true (recover_from_error ["", "3|t|Good", ""])).map
        fun p => (p.1, p.2 + 1) :=
  c1_parse_error_recovered_stream_continues.1 true
    ["1|t|AAA", "2|t|BBB", "", "3|t|Good", ""] "doc ID mismatch: 2|t|BBB"
    ["", "3|t|Good", ""] (by simp) rfl

/-- C10: a `None` or empty id filter (both modelled by `ids = []`) makes
the skip step return `False` without consuming any input, and
`read_pubtator` then behaves exactly like the unfiltered stream reader,
yielding every document: an empty filter set disables filtering rather
than filtering everything out. -/
theorem c10_empty_filter_disables_filtering :
    (∀ ls : List String, skip_pubtator_document [] ls = Except.ok (false, ls)) ∧
      ∀ (v : Bool) (ls : List String),
        read_pubtator [] v ls = Except.ok (read_pubtator_unfiltered v ls) :=
  ⟨fun _ => rfl, fun v ls => readPubtatorFuel_empty_ids v (ls.length + 1) ls⟩

/-! ### Identifier minting: `next_in_seq` returns the least fresh index -/

theorem decVal_snoc (l : List Char) (c : Char) :
    decVal (l ++ [c]) = decVal l * 10 + (c.toNat - 48) := by
  unfold decVal
  rw [List.foldl_append]
  rfl

theorem digitChar_toNat {d : Nat} (h : d < 10) : (Nat.digitChar d).toNat - 48 = d := by
  interval_cases d <;> rfl

theorem decVal_pyStrAux : ∀ f n, n ≤ f → decVal (pyStrAux f n) = n := by
  intro f
  induction f with
  | zero => intro n h; interval_cases n; rfl
  | succ f ih =>
    intro n h
    by_cases hz : n = 0
    · subst hz; rfl
    · rw [pyStrAux, if_neg hz, decVal_snoc]
      have hlt := Nat.div_lt_self (Nat.pos_of_ne_zero hz) (show 1 < 10 by norm_num)
      rw [ih (n / 10) (by omega)]
      rw [digitChar_toNat (Nat.mod_lt n (by norm_num))]
      omega

theorem pyStr_inj {a b : Nat} (h : pyStr a = pyStr b) : a = b := by
  have hd : (pyStr a).data = (pyStr b).data := by rw [h]
  unfold pyStr at hd
  by_cases ha : a = 0 <;> by_cases hb : b = 0
  · omega
  · exfalso
    rw [if_pos ha, if_neg hb] at hd
    have hd2 : ("0" : String).data = pyStrAux b b := hd
    have h1 := congrArg decVal hd2
    rw [decVal_pyStrAux b b (Nat.le_refl b)] at h1
    have h0 : decVal ("0" : String).data = 0 := rfl
    omega
  · exfalso
    rw [if_neg ha, if_pos hb] at hd
    have hd2 : pyStrAux a a = ("0" : String).data := hd
    have h1 := congrArg decVal hd2
    rw [decVal_pyStrAux a a (Nat.le_refl a)] at h1
    have h0 : decVal ("0" : String).data = 0 := rfl
    omega
  · rw [if_neg ha, if_neg hb] at hd
    have hd2 : pyStrAux a a = pyStrAux b b := hd
    have h1 := congrArg decVal hd2
    rwa [decVal_pyStrAux a a (Nat.le_refl a),
      decVal_pyStrAux b b (Nat.le_refl b)] at h1

theorem key_inj (pre : String) : Function.Injective fun i => pre ++ pyStr i := by
  intro i j h
  have h2 : pre ++ pyStr i = pre ++ pyStr j := h
  apply pyStr_inj
  have hd : (pre ++ pyStr i).data = (pre ++ pyStr j).data := by rw [h2]
  rw [String.data_append, String.data_append] at hd
  exact String.ext (List.append_cancel_left hd)

theorem exists_fresh_key (pre : String) (taken : List String) :
    ∃ i, 1 ≤ i ∧ i ≤ taken.length + 1 ∧ (pre ++ pyStr i) ∉ taken := by
  by_contra hcon
  push_neg at hcon
  have hsub : ((Finset.Icc 1 (taken.length + 1)).image fun i => pre ++ pyStr i) ⊆
      taken.toFinset := by
    intro x hx
    rw [Finset.mem_image] at hx
    obtain ⟨i, hi, rfl⟩ := hx
    rw [Finset.mem_Icc] at hi
    rw [List.mem_toFinset]
    exact hcon i hi.1 hi.2
  have hcard1 : ((Finset.Icc 1 (taken.length + 1)).image fun i => pre ++ pyStr i).card =
      taken.length + 1 := by
    rw [Finset.card_image_of_injective _ (key_inj pre), Nat.card_Icc]
    omega
  have hcard2 := Finset.card_le_card hsub
  have hcard3 := List.toFinset_card_le taken
  omega

theorem nextInSeqGo_spec (pre : String) (taken : List String) :
    ∀ f i : Nat, (∃ j, i ≤ j ∧ j < i + f ∧ (pre ++ pyStr j) ∉ taken) →
      ∃ n, nextInSeqGo pre taken f i = pre ++ pyStr n ∧ i ≤ n ∧
        (pre ++ pyStr n) ∉ taken ∧
        ∀ m, i ≤ m → m < n → (pre ++ pyStr m) ∈ taken := by
  intro f
  induction f with
  | zero =>
    intro i h
    obtain ⟨j, hj1, hj2, _⟩ := h
    omega
  | succ f ih =>
    intro i hex
    rw [nextInSeqGo]
    by_cases hc : taken.contains (pre ++ pyStr i) = true
    · rw [if_pos hc]
      have hmem : (pre ++ pyStr i) ∈ taken := by
        simpa using hc
      obtain ⟨j, hj1, hj2, hj3⟩ := hex
      have hji : j ≠ i := fun he => hj3 (he ▸ hmem)
      obtain ⟨n, h1, h2, h3, h4⟩ := ih (i + 1) ⟨j, by omega, by omega, hj3⟩
      refine ⟨n, h1, by omega, h3, fun m hm1 hm2 => ?_⟩
      by_cases hmi : m = i
      · subst hmi; exact hmem
      · exact h4 m (by omega) hm2
    · rw [if_neg hc]
      have hmem : (pre ++ pyStr i) ∉ taken := by
        intro hm
        exact hc (by simpa using hm)
      exact ⟨i, rfl, Nat.le_refl i, hmem, fun m hm1 hm2 => absurd hm1 (by omega)⟩

theorem next_in_seq_spec (pre : String) (taken : List String) :
    ∃ n, next_in_seq pre taken = pre ++ pyStr n ∧ 1 ≤ n ∧
      (pre ++ pyStr n) ∉ taken ∧
      ∀ m, 1 ≤ m → m < n → (pre ++ pyStr m) ∈ taken := by
  obtain ⟨j, hj1, hj2, hj3⟩ := exists_fresh_key pre taken
  exact nextInSeqGo_spec pre taken (taken.length + 1) 1 ⟨j, hj1, by omega, hj3⟩

theorem annNormFold_spec (tid text : String) :
    ∀ (ns : List (Option String)) (tk ln : List String),
      ∃ nids, annNormFold tid text (tk, ln) ns =
          (tk ++ nids,
            ln ++ (nids.zip (ns.filterMap pyTruthy)).map fun p =>
              p.1 ++ "\tReference " ++ tid ++ " " ++ p.2 ++ "\t" ++ text) ∧
        nids.length = (ns.filterMap pyTruthy).length ∧
        ∀ k (hk : k < nids.length),
          nids.get ⟨k, hk⟩ = next_in_seq "N" (tk ++ nids.take k) := by
  intro ns
  induction ns with
  | nil =>
    intro tk ln
    exact ⟨[], by simp [annNormFold], rfl, fun k hk => absurd hk (by simp)⟩
  | cons n rest ih =>
    intro tk ln
    cases hn : pyTruthy n with
    | none =>
      obtain ⟨nids, h1, h2, h3⟩ := ih tk ln
      refine ⟨nids, ?_, ?_, h3⟩
      · rw [annNormFold, List.filterMap_cons, hn]
        dsimp only
        exact h1
      · simp only [List.filterMap_cons, hn]
        exact h2
    | some norm =>
      obtain ⟨nids, h1, h2, h3⟩ :=
        ih (tk ++ [next_in_seq "N" tk])
          (ln ++ [next_in_seq "N" tk ++ "\tReference " ++ tid ++ " " ++ norm ++
            "\t" ++ text])
      refine ⟨next_in_seq "N" tk :: nids, ?_, ?_, ?_⟩
      · rw [annNormFold, hn]
        dsimp only
        rw [h1]
        rw [List.filterMap_cons, hn]
        refine congrArg₂ Prod.mk ?_ ?_
        · rw [List.append_assoc]
          rfl
        · rw [List.zip_cons_cons, List.map_cons, List.append_assoc]
          rfl
      · rw [List.filterMap_cons, hn]
        simp [h2]
      · intro k hk
        cases k with
        | zero => simp
        | succ k =>
          have hk2 : k < nids.length := by
            simpa using hk
          have hg := h3 k hk2
          simp only [List.get_cons_succ]
          rw [hg, List.take_succ_cons, List.append_assoc]
          rfl

/-- C4: for every span serialized to standoff, one markup line
`T<n>\t<type> <start> <end>\t<text>` is emitted, and for each non-null
derived normalized identifier one reference line
`N<n>\tReference T<n> <norm>\t<text>`; both `T` and `N` identifiers are
minted by `next_in_seq`, which returns `prefix + str(n)` for the smallest
positive integer `n` whose key is not already taken. -/
theorem c4_standoff_lines_and_minting :
    (∀ (pre : String) (taken : List String),
      ∃ n, next_in_seq pre taken = pre ++ pyStr n ∧ 1 ≤ n ∧
        (pre ++ pyStr n) ∉ taken ∧
        ∀ m, 1 ≤ m → m < n → (pre ++ pyStr m) ∈ taken) ∧
    ∀ (a : SpanAnn) (taken : List String) (ns : List (Option String)),
      a.norms = Except.ok ns →
      ∃ nids,
        a.to_ann_lines taken = Except.ok
          ((next_in_seq "T" taken ++ "\t" ++ map_to_output_type a.type ++ " " ++
              pyStr a.start ++ " " ++ pyStr a.end_ ++ "\t" ++ a.text) ::
            ((nids.zip (ns.filterMap pyTruthy)).map fun p =>
              p.1 ++ "\tReference " ++ next_in_seq "T" taken ++ " " ++ p.2 ++
                "\t" ++ a.text),
            (taken ++ [next_in_seq "T" taken]) ++ nids) ∧
        nids.length = (ns.filterMap pyTruthy).length ∧
        ∀ k (hk : k < nids.length),
          nids.get ⟨k, hk⟩ =
            next_in_seq "N" ((taken ++ [next_in_seq "T" taken]) ++ nids.take k) := by
  refine ⟨next_in_seq_spec, fun a taken ns hns => ?_⟩
  obtain ⟨nids, h1, h2, h3⟩ :=
    annNormFold_spec (next_in_seq "T" taken) a.text ns (taken ++ [next_in_seq "T" taken])
      [next_in_seq "T" taken ++ "\t" ++ map_to_output_type a.type ++ " " ++
        pyStr a.start ++ " " ++ pyStr a.end_ ++ "\t" ++ a.text]
  refine ⟨nids, ?_, h2, h3⟩
  unfold SpanAnn.to_ann_lines
  rw [hns]
  dsimp only
  rw [h1]
  rfl

/-! ### String containment and normalization-field lemmas -/

theorem startsWithChars_iff :
    ∀ (pat l : List Char), startsWithChars pat l = true ↔ ∃ y, l = pat ++ y := by
  intro pat
  induction pat with
  | nil => intro l; simp [startsWithChars]
  | cons p ps ih =>
    intro l
    cases l with
    | nil => simp [startsWithChars]
    | cons c cs =>
      rw [startsWithChars]
      simp only [Bool.and_eq_true, decide_eq_true_eq]
      constructor
      · rintro ⟨rfl, hs⟩
        obtain ⟨y, rfl⟩ := (ih cs).mp hs
        exact ⟨y, rfl⟩
      · rintro ⟨y, hy⟩
        rw [List.cons_append] at hy
        injection hy with h1 h2
        exact ⟨h1.symm, (ih cs).mpr ⟨y, h2⟩⟩

theorem containsSub_iff :
    ∀ (pat l : List Char), containsSub pat l = true ↔ ∃ x y, l = x ++ pat ++ y := by
  intro pat l
  induction l with
  | nil =>
    rw [containsSub, startsWithChars_iff]
    constructor
    · rintro ⟨y, hy⟩
      exact ⟨[], y, by simpa using hy⟩
    · rintro ⟨x, y, hxy⟩
      have hx : x = [] ∧ pat ++ y = [] := by
        have := hxy.symm
        rw [List.append_assoc] at this
        exact List.append_eq_nil.mp this
      exact ⟨y, by rw [← hx.2]⟩
  | cons c cs ih =>
    rw [containsSub]
    simp only [Bool.or_eq_true, startsWithChars_iff, ih]
    constructor
    · rintro (⟨y, hy⟩ | ⟨x, y, hxy⟩)
      · exact ⟨[], y, by simpa using hy⟩
      · exact ⟨c :: x, y, by simp [hxy]⟩
    · rintro ⟨x, y, hxy⟩
      cases x with
      | nil => exact Or.inl ⟨y, by simpa using hxy⟩
      | cons x0 xs =>
        rw [List.cons_append, List.cons_append] at hxy
        injection hxy with h1 h2
        exact Or.inr ⟨xs, y, h2⟩

theorem strIn_iff (pat s : String) :
    strIn pat s = true ↔ ∃ x y, s.data = x ++ pat.data ++ y :=
  containsSub_iff pat.data s.data

theorem strIn_false_iff (pat s : String) :
    strIn pat s = false ↔ ¬∃ x y, s.data = x ++ pat.data ++ y := by
  rw [← strIn_iff]
  cases h : strIn pat s <;> simp

theorem mem_of_strIn_singleton {c : Char} {s : String}
    (h : strIn ⟨[c]⟩ s = true) : c ∈ s.data := by
  obtain ⟨x, y, hxy⟩ := (strIn_iff _ _).mp h
  rw [hxy]
  simp

theorem not_blank_of_mem_nonws {s : String} {c : Char}
    (h : c ∈ s.data) (hc : c.isWhitespace = false) : blankStr s = false := by
  unfold blankStr
  cases hb : s.data.all Char.isWhitespace
  · rfl
  · rw [List.all_eq_true] at hb
    have := hb c h
    rw [hc] at this
    exact absurd this (by simp)

theorem strIn_single_false_of_not_mem {c : Char} {s : String}
    (h : c ∉ s.data) : strIn ⟨[c]⟩ s = false := by
  cases hb : strIn ⟨[c]⟩ s
  · rfl
  · exact absurd (mem_of_strIn_singleton hb) h

theorem splitDigits_spec {l ds rest : List Char}
    (h : splitDigits l = some (ds, rest)) :
    ds = l.takeWhile Char.isDigit ∧ rest = l.dropWhile Char.isDigit ∧ ds ≠ [] := by
  unfold splitDigits at h
  cases ht : l.takeWhile Char.isDigit with
  | nil => rw [ht] at h; simp at h
  | cons c cs =>
    rw [ht] at h
    simp only [Option.some.injEq, Prod.mk.injEq] at h
    refine ⟨h.1.symm, h.2.symm, ?_⟩
    rw [← h.1]
    simp

theorem mapNormOne_ok_spec (t : String) :
    ∀ (fs rs : List String), mapNormOne t fs = Except.ok rs →
      rs.length = fs.length ∧
        ∀ k (hf : k < fs.length) (hr : k < rs.length),
          normOne t (fs.get ⟨k, hf⟩) = Except.ok (rs.get ⟨k, hr⟩) := by
  intro fs
  induction fs with
  | nil =>
    intro rs h
    rw [mapNormOne] at h
    simp only [Except.ok.injEq] at h
    subst h
    exact ⟨rfl, fun k hf _ => absurd hf (by simp)⟩
  | cons f fs ih =>
    intro rs h
    rw [mapNormOne] at h
    rcases hf : normOne t f with e | r
    · rw [hf] at h; simp at h
    · rw [hf] at h
      dsimp only at h
      rcases hm : mapNormOne t fs with e | rs0
      · rw [hm] at h; simp at h
      · rw [hm] at h
        simp only [Except.ok.injEq] at h
        subst h
        obtain ⟨hlen, hget⟩ := ih rs0 hm
        refine ⟨by simp [hlen], fun k hkf hkr => ?_⟩
        cases k with
        | zero => simpa using hf
        | succ k =>
          simp only [List.get_cons_succ]
          exact hget k (by simpa using hkf) (by simpa using hkr)

theorem strip_taxonomy_id_spec {f d : String} (h : strip_taxonomy_id f = some d) :
    ∃ b : String, f = d ++ "(Tax:" ++ b ++ ")" ∧ d ≠ "" ∧ b ≠ "" ∧
      (∀ ch ∈ d.data, ch.isDigit = true) ∧ (∀ ch ∈ b.data, ch.isDigit = true) := by
  unfold strip_taxonomy_id at h
  rcases h1 : splitDigits f.data with _ | ⟨ds, rest⟩
  · rw [h1] at h; simp at h
  · rw [h1] at h
    dsimp only at h
    by_cases hs : startsWithChars ("(Tax:" : String).data rest = true
    · rw [if_pos hs] at h
      rcases h2 : splitDigits (rest.drop 5) with _ | ⟨ds2, r2⟩
      · rw [h2] at h; simp at h
      · rw [h2] at h
        dsimp only at h
        by_cases hr2 : r2 = [')']
        · rw [if_pos hr2] at h
          simp only [Option.some.injEq] at h
          subst h
          obtain ⟨hds, hrest, hne⟩ := splitDigits_spec h1
          obtain ⟨hds2, hr2eq, hne2⟩ := splitDigits_spec h2
          obtain ⟨y, hy⟩ := (startsWithChars_iff _ rest).mp hs
          have hdrop : rest.drop 5 = y := by
            rw [hy]
            have h5 : ("(Tax:" : String).data.length = 5 := rfl
            rw [← h5, List.drop_left]
          have hysplit : y = ds2 ++ [')'] := by
            rw [← hdrop, ← hr2]
            rw [hds2, hr2eq]
            rw [List.takeWhile_append_dropWhile]
          refine ⟨⟨ds2⟩, ?_, ?_, ?_, ?_, ?_⟩
          · apply String.ext
            simp only [String.data_append]
            have hfd : f.data = ds ++ rest := by
              rw [hds, hrest, List.takeWhile_append_dropWhile]
            rw [hfd, hy, hysplit]
            simp
          · intro he
            have : ds = [] := congrArg String.data he
            exact hne this
          · intro he
            have : ds2 = [] := congrArg String.data he
            exact hne2 this
          · intro ch hch
            rw [hds] at hch
            exact List.mem_takeWhile_imp hch
          · intro ch hch
            rw [hds2] at hch
            exact List.mem_takeWhile_imp hch
        · rw [if_neg hr2] at h; simp at h
    · rw [if_neg hs] at h; simp at h

theorem normOne_spec {t f r : String} (h : normOne t f = Except.ok r) :
    (strIn "(Tax:" f = false →
      (strIn ":" f = true → r = f) ∧
      (strIn ":" f = false → r = norm_namespace t ++ ":" ++ f)) ∧
    (strIn "(Tax:" f = true →
      ∃ d b : String, f = d ++ "(Tax:" ++ b ++ ")" ∧ d ≠ "" ∧ b ≠ "" ∧
        (∀ ch ∈ d.data, ch.isDigit = true) ∧ (∀ ch ∈ b.data, ch.isDigit = true) ∧
        r = norm_namespace t ++ ":" ++ d) := by
  constructor
  · intro htax
    unfold normOne at h
    rw [htax] at h
    simp only [Bool.false_eq_true, if_false] at h
    simp only [Except.ok.injEq] at h
    constructor
    · intro hc; rw [hc] at h; simpa using h.symm
    · intro hc; rw [hc] at h; simpa using h.symm
  · intro htax
    unfold normOne at h
    rw [htax] at h
    simp only [if_true] at h
    rcases hstrip : strip_taxonomy_id f with _ | d
    · rw [hstrip] at h; simp at h
    · rw [hstrip] at h
      dsimp only at h
      simp only [Except.ok.injEq] at h
      obtain ⟨b, hf, hdne, hbne, hddig, hbdig⟩ := strip_taxonomy_id_spec hstrip
      have hnocolon : strIn ":" d = false := by
        apply strIn_single_false_of_not_mem
        intro hmem
        have := hddig ':' hmem
        exact absurd this (by decide)
      rw [hnocolon] at h
      simp only [Bool.false_eq_true, if_false] at h
      exact ⟨d, b, hf, hdne, hbne, hddig, hbdig, h.symm⟩

theorem norm_namespace_spec (t : String) :
    ((∃ x y, t.data = x ++ ("Species" : String).data ++ y) →
      norm_namespace t = "NCBITaxon") ∧
    ((¬∃ x y, t.data = x ++ ("Species" : String).data ++ y) →
      (∃ x y, t.data = x ++ ("Gene" : String).data ++ y) →
      norm_namespace t = "NCBIGENE") ∧
    ((¬∃ x y, t.data = x ++ ("Species" : String).data ++ y) →
      (¬∃ x y, t.data = x ++ ("Gene" : String).data ++ y) →
      (∃ x y, t.data = x ++ ("Chemical" : String).data ++ y) →
      norm_namespace t = "MESH") ∧
    ((¬∃ x y, t.data = x ++ ("Species" : String).data ++ y) →
      (¬∃ x y, t.data = x ++ ("Gene" : String).data ++ y) →
      (¬∃ x y, t.data = x ++ ("Chemical" : String).data ++ y) →
      ((∃ x y, t.data = x ++ ("DNAMutation" : String).data ++ y) ∨
        (∃ x y, t.data = x ++ ("ProteinMutation" : String).data ++ y) ∨
        (∃ x y, t.data = x ++ ("SNP" : String).data ++ y)) →
      norm_namespace t = t) ∧
    ((¬∃ x y, t.data = x ++ ("Species" : String).data ++ y) →
      (¬∃ x y, t.data = x ++ ("Gene" : String).data ++ y) →
      (¬∃ x y, t.data = x ++ ("Chemical" : String).data ++ y) →
      (¬∃ x y, t.data = x ++ ("DNAMutation" : String).data ++ y) →
      (¬∃ x y, t.data = x ++ ("ProteinMutation" : String).data ++ y) →
      (¬∃ x y, t.data = x ++ ("SNP" : String).data ++ y) →
      norm_namespace t = "unknown") := by
  refine ⟨?_, ?_, ?_, ?_, ?_⟩
  · intro hS
    have h1 : strIn "Species" t = true := (strIn_iff _ _).mpr hS
    unfold norm_namespace
    rw [h1, if_pos rfl]
  · intro hS hG
    have h1 : strIn "Species" t = false := (strIn_false_iff _ _).mpr hS
    have h2 : strIn "Gene" t = true := (strIn_iff _ _).mpr hG
    unfold norm_namespace
    rw [h1, h2]
    simp
  · intro hS hG hC
    have h1 : strIn "Species" t = false := (strIn_false_iff _ _).mpr hS
    have h2 : strIn "Gene" t = false := (strIn_false_iff _ _).mpr hG
    have h3 : strIn "Chemical" t = true := (strIn_iff _ _).mpr hC
    unfold norm_namespace
    rw [h1, h2, h3]
    simp
  · intro hS hG hC hM
    have h1 : strIn "Species" t = false := (strIn_false_iff _ _).mpr hS
    have h2 : strIn "Gene" t = false := (strIn_false_iff _ _).mpr hG
    have h3 : strIn "Chemical" t = false := (strIn_false_iff _ _).mpr hC
    have h4 : (strIn "DNAMutation" t || strIn "ProteinMutation" t ||
        strIn "SNP" t) = true := by
      rcases hM with hm | hm | hm
      · rw [(strIn_iff _ _).mpr hm]; simp
      · rw [(strIn_iff _ _).mpr hm]; simp
      · rw [(strIn_iff _ _).mpr hm]; simp
    unfold norm_namespace
    rw [h1, h2, h3, h4]
    simp
  · intro hS hG hC hD hP hN
    have h1 : strIn "Species" t = false := (strIn_false_iff _ _).mpr hS
    have h2 : strIn "Gene" t = false := (strIn_false_iff _ _).mpr hG
    have h3 : strIn "Chemical" t = false := (strIn_false_iff _ _).mpr hC
    have h4 : strIn "DNAMutation" t = false := (strIn_false_iff _ _).mpr hD
    have h5 : strIn "ProteinMutation" t = false := (strIn_false_iff _ _).mpr hP
    have h6 : strIn "SNP" t = false := (strIn_false_iff _ _).mpr hN
    unfold norm_namespace
    rw [h1, h2, h3, h4, h5, h6]
    simp

theorem norms_ok_shape {a : SpanAnn} {raw : String} {l : List (Option String)}
    (hr : a.rawNorm = some raw) (hb : blankStr raw = false)
    (h : a.norms = Except.ok l) :
    ∃ rs, mapNormOne a.type (split_norm raw a.type) = Except.ok rs ∧
      l = rs.map some := by
  unfold SpanAnn.norms at h
  rw [hr] at h
  dsimp only at h
  rw [hb] at h
  simp only [Bool.false_eq_true, if_false] at h
  rcases hm : mapNormOne a.type (split_norm raw a.type) with e | rs
  · rw [hm] at h; simp [Except.map] at h
  · rw [hm] at h
    simp only [Except.map, Except.ok.injEq] at h
    exact ⟨rs, rfl, h.symm⟩

theorem split_norm_semicolon {raw t : String} (h : strIn ";" raw = true) :
    split_norm raw t = (splitChar ';' raw.data).map fun l => (⟨l⟩ : String) := by
  unfold split_norm
  rw [h]
  simp

theorem split_norm_pipe_chemical {raw : String} (h1 : strIn ";" raw = false)
    (h2 : strIn "|" raw = true) :
    split_norm raw "Chemical" = (splitChar '|' raw.data).map fun l => (⟨l⟩ : String) := by
  unfold split_norm
  rw [h1, h2]
  simp

theorem split_norm_single {raw t : String} (h1 : strIn ";" raw = false)
    (h2 : t ≠ "Chemical") : split_norm raw t = [raw] := by
  unfold split_norm
  rw [h1]
  simp [h2]

/-- C2 counterexample: the raw normalization field `1(Tax:;2` contains `;`,
but the `norms` derivation raises `ValueError` (malformed `(Tax:` field in
the first `;`-separated part), so there is no derived norms list at all,
let alone one with one entry per field. -/
theorem c2_counterexample :
    strIn ";" "1(Tax:;2" = true ∧
    SpanAnn.norms ⟨"27086975", 1178, 1188, "x", "Gene", some "1(Tax:;2", none⟩ =
      Except.error "failed to strip taxonomy ID from 1(Tax:" ∧
    ∀ l : List (Option String),
      SpanAnn.norms ⟨"27086975", 1178, 1188, "x", "Gene", some "1(Tax:;2", none⟩ ≠
        Except.ok l := by
  refine ⟨rfl, rfl, fun l h => ?_⟩
  rw [show SpanAnn.norms ⟨"27086975", 1178, 1188, "x", "Gene", some "1(Tax:;2", none⟩ =
      Except.error "failed to strip taxonomy ID from 1(Tax:" from rfl] at h
  exact Except.noConfusion h

/-- C2 (amended): whenever the `norms` derivation succeeds (a field
containing `(Tax:` that is not of the form `<digits>(Tax:<digits>` followed
by `)` makes it raise `ValueError` instead of returning a list), the norms
list has exactly one entry per `;`-separated field; for type `Chemical`
whose raw field has `|` but no `;`, one entry per `|`-separated field; and
for a non-`Chemical` type without `;`, a `|` is not a separator and the
list has exactly one entry. -/
theorem c2_amended_norm_counts :
    (∀ (a : SpanAnn) (raw : String) (l : List (Option String)),
      a.rawNorm = some raw → a.norms = Except.ok l → strIn ";" raw = true →
      l.length = (splitChar ';' raw.data).length) ∧
    (∀ (a : SpanAnn) (raw : String) (l : List (Option String)),
      a.rawNorm = some raw → a.norms = Except.ok l → a.type = "Chemical" →
      strIn "|" raw = true → strIn ";" raw = false →
      l.length = (splitChar '|' raw.data).length) ∧
    (∀ (a : SpanAnn) (raw : String) (l : List (Option String)),
      a.rawNorm = some raw → a.norms = Except.ok l →
      a.type ≠ "Chemical" → strIn ";" raw = false →
      l.length = 1) := by
  refine ⟨?_, ?_, ?_⟩
  · intro a raw l hr h hsemi
    have hb : blankStr raw = false :=
      not_blank_of_mem_nonws (mem_of_strIn_singleton hsemi) (by decide)
    obtain ⟨rs, hm, hl⟩ := norms_ok_shape hr hb h
    obtain ⟨hlen, -⟩ := mapNormOne_ok_spec a.type _ rs hm
    rw [split_norm_semicolon hsemi] at hlen
    subst hl
    simp only [List.length_map]
    rw [hlen]
    simp
  · intro a raw l hr h htype hpipe hsemi
    have hb : blankStr raw = false :=
      not_blank_of_mem_nonws (mem_of_strIn_singleton hpipe) (by decide)
    obtain ⟨rs, hm, hl⟩ := norms_ok_shape hr hb h
    obtain ⟨hlen, -⟩ := mapNormOne_ok_spec a.type _ rs hm
    rw [htype, split_norm_pipe_chemical hsemi hpipe] at hlen
    subst hl
    simp only [List.length_map]
    rw [hlen]
    simp
  · intro a raw l hr h htype hsemi
    by_cases hb : blankStr raw = true
    · unfold SpanAnn.norms at h
      rw [hr] at h
      dsimp only at h
      rw [hb] at h
      simp only [if_true] at h
      simp only [Except.ok.injEq] at h
      rw [← h]
      rfl
    · obtain ⟨rs, hm, hl⟩ :=
        norms_ok_shape hr (by simpa using hb) h
      obtain ⟨hlen, -⟩ := mapNormOne_ok_spec a.type _ rs hm
      rw [split_norm_single hsemi htype] at hlen
      subst hl
      simp only [List.length_map]
      rw [hlen]
      rfl

/-- Witness for the first part of the amended C2 at the gene span of the
source's own comment (`6647;6648`): two fields, two norms entries. -/
theorem c2_witness :
    ([some "NCBIGENE:6647", some "NCBIGENE:6648"] : List (Option String)).length =
      (splitChar ';' ("6647;6648" : String).data).length :=
  c2_amended_norm_counts.1
    ⟨"27086975", 1178, 1188, "SOD1 and 2", "Gene", some "6647;6648", none⟩
    "6647;6648" [some "NCBIGENE:6647", some "NCBIGENE:6648"] rfl rfl rfl

/-- C3 counterexample: for the type `Species-Nomical` — none of the six
types of the claim's namespace table, hence namespace `unknown` according
to the claim — the code infers the namespace by substring containment and
produces `NCBITaxon:123` instead of `unknown:123`. -/
theorem c3_counterexample :
    SpanAnn.norms ⟨"1", 0, 1, "x", "Species-Nomical", some "123", none⟩ =
      Except.ok [some "NCBITaxon:123"] ∧
    ("Species-Nomical" : String) ∉
      (["Species", "Gene", "Chemical", "DNAMutation", "ProteinMutation",
        "SNP"] : List String) ∧
    ("NCBITaxon:123" : String) ≠ "unknown" ++ ":" ++ "123" :=
  ⟨rfl, by decide, by decide⟩

/-- C3 (amended): an absent or blank raw normalization field yields
exactly `[none]`; each successful entry is the field passed through
unchanged when it contains `:`, and otherwise the inferred namespace
joined with `:`, where an entry containing `(Tax:` must be of the form
`<digits>(Tax:<digits>)` and is first reduced to its leading digits (any
other `(Tax:` entry raises `ValueError`); the namespace is inferred by
substring containment — a type merely containing `Species`/`Gene`/
`Chemical`/`DNAMutation`/`ProteinMutation`/`SNP` gets that rule's
namespace, and only a type containing none of them gets `unknown`; and the
entries of a successful norms list are exactly the per-field results. -/
theorem c3_amended_norm_entries :
    (∀ a : SpanAnn, a.rawNorm = none → a.norms = Except.ok [none]) ∧
    (∀ (a : SpanAnn) (raw : String), a.rawNorm = some raw →
      blankStr raw = true → a.norms = Except.ok [none]) ∧
    (∀ t f r : String, normOne t f = Except.ok r →
      (strIn "(Tax:" f = false →
        (strIn ":" f = true → r = f) ∧
        (strIn ":" f = false → r = norm_namespace t ++ ":" ++ f)) ∧
      (strIn "(Tax:" f = true →
        ∃ d b : String, f = d ++ "(Tax:" ++ b ++ ")" ∧ d ≠ "" ∧ b ≠ "" ∧
          (∀ ch ∈ d.data, ch.isDigit = true) ∧
          (∀ ch ∈ b.data, ch.isDigit = true) ∧
          r = norm_namespace t ++ ":" ++ d)) ∧
    (∀ t : String,
      ((∃ x y, t.data = x ++ ("Species" : String).data ++ y) →
        norm_namespace t = "NCBITaxon") ∧
      ((¬∃ x y, t.data = x ++ ("Species" : String).data ++ y) →
        (∃ x y, t.data = x ++ ("Gene" : String).data ++ y) →
        norm_namespace t = "NCBIGENE") ∧
      ((¬∃ x y, t.data = x ++ ("Species" : String).data ++ y) →
        (¬∃ x y, t.data = x ++ ("Gene" : String).data ++ y) →
        (∃ x y, t.data = x ++ ("Chemical" : String).data ++ y) →
        norm_namespace t = "MESH") ∧
      ((¬∃ x y, t.data = x ++ ("Species" : String).data ++ y) →
        (¬∃ x y, t.data = x ++ ("Gene" : String).data ++ y) →
        (¬∃ x y, t.data = x ++ ("Chemical" : String).data ++ y) →
        ((∃ x y, t.data = x ++ ("DNAMutation" : String).data ++ y) ∨
          (∃ x y, t.data = x ++ ("ProteinMutation" : String).data ++ y) ∨
          (∃ x y, t.data = x ++ ("SNP" : String).data ++ y)) →
        norm_namespace t = t) ∧
      ((¬∃ x y, t.data = x ++ ("Species" : String).data ++ y) →
        (¬∃ x y, t.data = x ++ ("Gene" : String).data ++ y) →
        (¬∃ x y, t.data = x ++ ("Chemical" : String).data ++ y) →
        (¬∃ x y, t.data = x ++ ("DNAMutation" : String).data ++ y) →
        (¬∃ x y, t.data = x ++ ("ProteinMutation" : String).data ++ y) →
        (¬∃ x y, t.data = x ++ ("SNP" : String).data ++ y) →
        norm_namespace t = "unknown")) ∧
    (∀ (a : SpanAnn) (raw : String) (l : List (Option String)),
      a.rawNorm = some raw → blankStr raw = false → a.norms = Except.ok l →
      l.length = (split_norm raw a.type).length ∧
      ∀ k (hk : k < (split_norm raw a.type).length) (hl : k < l.length),
        ∃ r, normOne a.type ((split_norm raw a.type).get ⟨k, hk⟩) =
            Except.ok r ∧
          l.get ⟨k, hl⟩ = some r) := by
  refine ⟨?_, ?_, fun t f r h => normOne_spec h, norm_namespace_spec, ?_⟩
  · intro a h
    unfold SpanAnn.norms
    rw [h]
  · intro a raw h hb
    unfold SpanAnn.norms
    rw [h]
    dsimp only
    rw [hb]
    simp
  · intro a raw l hr hb h
    obtain ⟨rs, hm, hl⟩ := norms_ok_shape hr hb h
    obtain ⟨hlen, hget⟩ := mapNormOne_ok_spec a.type _ rs hm
    subst hl
    refine ⟨by simp [hlen], fun k hk hlk => ?_⟩
    have hrk : k < rs.length := by simpa using hlk
    refine ⟨rs.get ⟨k, hrk⟩, hget k hk hrk, ?_⟩
    simp [List.get_eq_getElem, List.getElem_map]

/-- Witness for the last part of the amended C3 at a `Species` span whose
raw field is `9606(Tax:562)`: the `(Tax:` suffix is stripped first and the
`NCBITaxon` namespace is joined on. -/
theorem c3_witness :
    ([some "NCBITaxon:9606"] : List (Option String)).length =
      (split_norm "9606(Tax:562)" "Species").length ∧
    ∃ r, normOne "Species"
        ((split_norm "9606(Tax:562)" "Species").get ⟨0, by decide⟩) =
        Except.ok r ∧
      ([some "NCBITaxon:9606"] : List (Option String)).get ⟨0, by decide⟩ = some r :=
  ⟨(c3_amended_norm_entries.2.2.2.2
      ⟨"1", 0, 1, "x", "Species", some "9606(Tax:562)", none⟩
      "9606(Tax:562)" [some "NCBITaxon:9606"] rfl rfl rfl).1,
    (c3_amended_norm_entries.2.2.2.2
      ⟨"1", 0, 1, "x", "Species", some "9606(Tax:562)", none⟩
      "9606(Tax:562)" [some "NCBITaxon:9606"] rfl rfl rfl).2
      0 (by decide) (by decide)⟩

/-- C5: a span with k derived normalized identifiers yields exactly k JSON
records, each carrying start/end/text/output-type plus `norm` exactly when
the identifier is truthy; a span's OA records consume the consecutive
indices `idx .. idx+k-1`; and in both JSON-LD document serializations
every record's minted identifier carries its zero-based position in the
whole per-document record list, so indices are unique across the document
rather than restarting per span. -/
theorem c5_record_counts_and_sequential_indices :
    (∀ (a : SpanAnn) (ns : List (Option String)) (l : List JsonRecord),
      a.norms = Except.ok ns → a.to_dicts = Except.ok l →
      l.length = ns.length ∧
        ∀ k (hk : k < l.length) (hk2 : k < ns.length),
          l[k] = ⟨a.start, a.end_, a.text, map_to_output_type a.type,
            pyTruthy ns[k]⟩) ∧
    (∀ (a : SpanAnn) (u : String) (idx : Nat) (ns : List (Option String))
      (ds : List OaRecord),
      a.norms = Except.ok ns → a.to_oa_jsonld_dicts u idx = Except.ok ds →
      ds.length = ns.length ∧
        ∀ j (hj : j < ds.length),
          ds[j].at_id = u ++ "/annotations/" ++ pyStr (idx + j)) ∧
    (∀ (d : PubTatorDocument) (i : String) (recs : List OaRecord),
      d.id = some i → d.ann_oa_jsonld_dicts = Except.ok recs →
      ∀ p (hp : p < recs.length),
        recs[p].at_id = "pubmed/" ++ i ++ "/annotations/" ++ pyStr p) ∧
    (∀ (d : PubTatorDocument) (i : String) (recs : List WaRecord),
      d.id = some i → d.ann_wa_jsonld_dicts = Except.ok recs →
      ∀ p (hp : p < recs.length),
        recs[p].id = "PMID:" ++ i ++ "/ann/" ++ pyStr p) := by
  refine ⟨fun a ns l hn h => to_dicts_spec hn h,
    fun a u idx ns ds hn h => to_oa_dicts_spec hn h, ?_, ?_⟩
  · intro d i recs hid h
    unfold PubTatorDocument.ann_oa_jsonld_dicts at h
    rw [hid] at h
    dsimp only at h
    exact annOaGo_ids _ d.anns [] recs h (fun p hp => absurd hp (by simp))
  · intro d i recs hid h
    unfold PubTatorDocument.ann_wa_jsonld_dicts at h
    rw [hid] at h
    dsimp only at h
    exact annWaGo_ids _ d.anns [] recs h (fun p hp => absurd hp (by simp))

/-- Witness for C5's document-level OA sequential indexing at a document
whose first (Chemical) span has two normalized ids and whose second span
has one: the minted indices are 0, 1, 2 across the document. -/
theorem c5_witness :
    ([⟨"Chemical", "pubmed/129280/text#char=825,847", "5-iodo",
        "pubmed/129280/annotations/0", some "MESH:C029954"⟩,
      ⟨"Chemical", "pubmed/129280/text#char=825,847", "5-iodo",
        "pubmed/129280/annotations/1", some "MESH:D007065"⟩,
      ⟨"Chemical", "pubmed/129280/text#char=0,7", "Aspirin",
        "pubmed/129280/annotations/2", some "MESH:D001241"⟩] :
        List OaRecord)[0].at_id = "pubmed/" ++ "129280" ++ "/annotations/" ++ pyStr 0 ∧
    ([⟨"Chemical", "pubmed/129280/text#char=825,847", "5-iodo",
        "pubmed/129280/annotations/0", some "MESH:C029954"⟩,
      ⟨"Chemical", "pubmed/129280/text#char=825,847", "5-iodo",
        "pubmed/129280/annotations/1", some "MESH:D007065"⟩,
      ⟨"Chemical", "pubmed/129280/text#char=0,7", "Aspirin",
        "pubmed/129280/annotations/2", some "MESH:D001241"⟩] :
        List OaRecord)[1].at_id = "pubmed/" ++ "129280" ++ "/annotations/" ++ pyStr 1 ∧
    ([⟨"Chemical", "pubmed/129280/text#char=825,847", "5-iodo",
        "pubmed/129280/annotations/0", some "MESH:C029954"⟩,
      ⟨"Chemical", "pubmed/129280/text#char=825,847", "5-iodo",
        "pubmed/129280/annotations/1", some "MESH:D007065"⟩,
      ⟨"Chemical", "pubmed/129280/text#char=0,7", "Aspirin",
        "pubmed/129280/annotations/2", some "MESH:D001241"⟩] :
        List OaRecord)[2].at_id = "pubmed/" ++ "129280" ++ "/annotations/" ++ pyStr 2 :=
  ⟨c5_record_counts_and_sequential_indices.2.2.1
    ⟨some "129280", [('t', "T")],
      [Ann.span ⟨"129280", 825, 847, "5-iodo", "Chemical",
        some "MESH:C029954|MESH:D007065", none⟩,
        Ann.span ⟨"129280", 0, 7, "Aspirin", "Chemical",
          some "MESH:D001241", none⟩]⟩
    "129280"
    [⟨"Chemical", "pubmed/129280/text#char=825,847", "5-iodo",
        "pubmed/129280/annotations/0", some "MESH:C029954"⟩,
      ⟨"Chemical", "pubmed/129280/text#char=825,847", "5-iodo",
        "pubmed/129280/annotations/1", some "MESH:D007065"⟩,
      ⟨"Chemical", "pubmed/129280/text#char=0,7", "Aspirin",
        "pubmed/129280/annotations/2", some "MESH:D001241"⟩]
    rfl rfl 0 (by decide),
  c5_record_counts_and_sequential_indices.2.2.1
    ⟨some "129280", [('t', "T")],
      [Ann.span ⟨"129280", 825, 847, "5-iodo", "Chemical",
        some "MESH:C029954|MESH:D007065", none⟩,
        Ann.span ⟨"129280", 0, 7, "Aspirin", "Chemical",
          some "MESH:D001241", none⟩]⟩
    "129280"
    [⟨"Chemical", "pubmed/129280/text#char=825,847", "5-iodo",
        "pubmed/129280/annotations/0", some "MESH:C029954"⟩,
      ⟨"Chemical", "pubmed/129280/text#char=825,847", "5-iodo",
        "pubmed/129280/annotations/1", some "MESH:D007065"⟩,
      ⟨"Chemical", "pubmed/129280/text#char=0,7", "Aspirin",
        "pubmed/129280/annotations/2", some "MESH:D001241"⟩]
    rfl rfl 1 (by decide),
  c5_record_counts_and_sequential_indices.2.2.1
    ⟨some "129280", [('t', "T")],
      [Ann.span ⟨"129280", 825, 847, "5-iodo", "Chemical",
        some "MESH:C029954|MESH:D007065", none⟩,
        Ann.span ⟨"129280", 0, 7, "Aspirin", "Chemical",
          some "MESH:D001241", none⟩]⟩
    "129280"
    [⟨"Chemical", "pubmed/129280/text#char=825,847", "5-iodo",
        "pubmed/129280/annotations/0", some "MESH:C029954"⟩,
      ⟨"Chemical", "pubmed/129280/text#char=825,847", "5-iodo",
        "pubmed/129280/annotations/1", some "MESH:D007065"⟩,
      ⟨"Chemical", "pubmed/129280/text#char=0,7", "Aspirin",
        "pubmed/129280/annotations/2", some "MESH:D001241"⟩]
    rfl rfl 2 (by decide)⟩

theorem writeStandoffGo_ok :
    ∀ (anns : List Ann) (annById lines warns : List String),
      (∀ s : SpanAnn, Ann.span s ∈ anns → ∃ ns, s.norms = Except.ok ns) →
      ∃ lines2, writeStandoffGo annById lines warns anns =
        Except.ok (lines2,
          warns ++ (anns.filter Ann.isRel).map
            fun _ => "not converting RelationAnnotation") := by
  intro anns
  induction anns with
  | nil =>
    intro annById lines warns h
    exact ⟨lines, by simp [writeStandoffGo]⟩
  | cons a rest ih =>
    intro annById lines warns h
    cases a with
    | rel r =>
      obtain ⟨lines2, hl⟩ :=
        ih annById lines (warns ++ ["not converting RelationAnnotation"])
          (fun s hs => h s (List.mem_cons_of_mem _ hs))
      refine ⟨lines2, ?_⟩
      rw [writeStandoffGo, hl]
      have hfilter : (Ann.rel r :: rest).filter Ann.isRel =
          Ann.rel r :: rest.filter Ann.isRel := by
        rw [List.filter_cons_of_pos]
        rfl
      rw [hfilter, List.map_cons, List.append_assoc]
      rfl
    | span s =>
      obtain ⟨ns, hns⟩ := h s (List.mem_cons_self _ _)
      have hta : s.to_ann_lines annById =
          Except.ok ((annNormFold (next_in_seq "T" annById) s.text
            (annById ++ [next_in_seq "T" annById],
              [next_in_seq "T" annById ++ "\t" ++ map_to_output_type s.type ++
                " " ++ pyStr s.start ++ " " ++ pyStr s.end_ ++ "\t" ++ s.text]) ns).2,
            (annNormFold (next_in_seq "T" annById) s.text
            (annById ++ [next_in_seq "T" annById],
              [next_in_seq "T" annById ++ "\t" ++ map_to_output_type s.type ++
                " " ++ pyStr s.start ++ " " ++ pyStr s.end_ ++ "\t" ++ s.text]) ns).1) := by
        unfold SpanAnn.to_ann_lines
        rw [hns]
      rw [writeStandoffGo, hta]
      dsimp only
      obtain ⟨lines3, hl3⟩ :=
        ih _ (lines ++ (annNormFold (next_in_seq "T" annById) s.text
            (annById ++ [next_in_seq "T" annById],
              [next_in_seq "T" annById ++ "\t" ++ map_to_output_type s.type ++
                " " ++ pyStr s.start ++ " " ++ pyStr s.end_ ++ "\t" ++ s.text]) ns).2)
          warns (fun s2 hs2 => h s2 (List.mem_cons_of_mem _ hs2))
      refine ⟨lines3, ?_⟩
      rw [hl3]
      have hfilter : (Ann.span s :: rest).filter Ann.isRel =
          rest.filter Ann.isRel := by
        rw [List.filter_cons_of_neg]
        simp [Ann.isRel]
      rw [hfilter]

theorem annRecordsGo_error_of_rel :
    ∀ anns : List Ann, (∃ r, Ann.rel r ∈ anns) →
      ∃ e, annRecordsGo anns = Except.error e := by
  intro anns
  induction anns with
  | nil => rintro ⟨r, hr⟩; simp at hr
  | cons a rest ih =>
    rintro ⟨r, hr⟩
    cases a with
    | rel r2 => exact ⟨"NotImplementedError", by rw [annRecordsGo]⟩
    | span s =>
      have hmem : Ann.rel r ∈ rest := by
        rcases List.mem_cons.mp hr with he | hm
        · exact absurd he (by simp)
        · exact hm
      obtain ⟨e, he⟩ := ih ⟨r, hmem⟩
      rw [annRecordsGo]
      cases hd : s.to_dicts with
      | error e2 => exact ⟨e2, rfl⟩
      | ok ds =>
        dsimp only
        rw [he]
        exact ⟨e, rfl⟩

/-- C6 counterexample: for a document holding one RelationAnnotation, the
JSON serialization does not skip-and-log: `ann_dict`'s record computation
raises `NotImplementedError`, and no JSON output is produced — the error
propagates to the serializer's caller (`write_json` and `convert` have no
handler), contradicting the claim that it is never propagated. -/
theorem c6_counterexample :
    PubTatorDocument.annRecords
        ⟨some "1", [('t', "T")], [Ann.rel ⟨"1", "CID", "D1", "D2"⟩]⟩ =
      Except.error "NotImplementedError" ∧
    ∀ s : String,
      PubTatorDocument.ann_json
          ⟨some "1", [('t', "T")], [Ann.rel ⟨"1", "CID", "D1", "D2"⟩]⟩ ≠
        Except.ok s := by
  refine ⟨rfl, fun s h => ?_⟩
  rw [show PubTatorDocument.ann_json
      ⟨some "1", [('t', "T")], [Ann.rel ⟨"1", "CID", "D1", "D2"⟩]⟩ =
      Except.error "NotImplementedError" from rfl] at h
  exact Except.noConfusion h

/-- C6 (amended): the standoff serializer skips every RelationAnnotation
with the logged warning `not converting RelationAnnotation` — one warning
per relation, in order — and, provided the spans' norms derivations
succeed, returns normally, propagating nothing; the JSON serializer, in
contrast, does not catch the missing-support error: for every document
containing a relation, the `ann_dict` record computation fails (with
`NotImplementedError`, or with an earlier span's `ValueError`), and that
error propagates to the serializer's caller. -/
theorem c6_amended_relation_serialization :
    (∀ d : PubTatorDocument,
      (∀ s : SpanAnn, Ann.span s ∈ d.anns → ∃ ns, s.norms = Except.ok ns) →
      ∃ lines, write_standoff_ann d =
        Except.ok (lines, (d.anns.filter Ann.isRel).map
          fun _ => "not converting RelationAnnotation")) ∧
    ∀ d : PubTatorDocument, (∃ r, Ann.rel r ∈ d.anns) →
      ∃ e, d.annRecords = Except.error e := by
  constructor
  · intro d h
    obtain ⟨lines2, hl⟩ := writeStandoffGo_ok d.anns [] [] [] h
    exact ⟨lines2, by simpa using hl⟩
  · intro d h
    exact annRecordsGo_error_of_rel d.anns h

/-- Witness for the amended C6 at a document with one span and one
relation: standoff succeeds with exactly one warning, JSON fails. -/
theorem c6_witness :
    (∃ lines, write_standoff_ann
        ⟨some "1", [('t', "T")],
          [Ann.span ⟨"1", 0, 7, "Aspirin", "Chemical", some "MESH:D001241", none⟩,
            Ann.rel ⟨"1", "CID", "D1", "D2"⟩]⟩ =
      Except.ok (lines,
        (([Ann.span ⟨"1", 0, 7, "Aspirin", "Chemical", some "MESH:D001241", none⟩,
          Ann.rel ⟨"1", "CID", "D1", "D2"⟩] : List Ann).filter Ann.isRel).map
          fun _ => "not converting RelationAnnotation")) ∧
    ∃ e, PubTatorDocument.annRecords
        ⟨some "1", [('t', "T")],
          [Ann.span ⟨"1", 0, 7, "Aspirin", "Chemical", some "MESH:D001241", none⟩,
            Ann.rel ⟨"1", "CID", "D1", "D2"⟩]⟩ = Except.error e :=
  ⟨c6_amended_relation_serialization.1 _
      (by
        intro s hs
        simp only [List.mem_cons, List.not_mem_nil, or_false] at hs
        rcases hs with h | h
        · rw [show s = ⟨"1", 0, 7, "Aspirin", "Chemical", some "MESH:D001241",
            none⟩ from by injection h]
          exact ⟨[some "MESH:D001241"], rfl⟩
        · exact absurd h (by simp)),
    c6_amended_relation_serialization.2 _ ⟨⟨"1", "CID", "D1", "D2"⟩, by simp⟩⟩

/-- C7: a text/offset mismatch produces exactly one warning — containing
the type, the document id, both offsets, and both strings — and no
exception; the `ValueError` channel of `validate` fires exactly when the
raw normalization field is present and non-empty but contains no
alphanumeric character, independently of any text mismatch. -/
theorem c7_validate_warning_and_norm_error :
    (∀ (a : SpanAnn) (docText : String),
      pySlice docText a.start a.end_ ≠ a.text →
      ∃ w, (a.validate docText).1 = [w] ∧
        (∃ x y, w = x ++ a.type ++ y) ∧
        (∃ x y, w = x ++ a.docid ++ y) ∧
        (∃ x y, w = x ++ pyStr a.start ++ y) ∧
        (∃ x y, w = x ++ pyStr a.end_ ++ y) ∧
        (∃ x y, w = x ++ pySlice docText a.start a.end_ ++ y) ∧
        (∃ x y, w = x ++ a.text ++ y)) ∧
    (∀ (a : SpanAnn) (docText : String),
      (a.validate docText).2.isSome = true ↔
        ∃ raw, a.rawNorm = some raw ∧ raw ≠ "" ∧
          raw.data.any Char.isAlphanum = false) := by
  constructor
  · intro a docText hmis
    unfold SpanAnn.validate
    dsimp only
    rw [if_neg (fun he => hmis he)]
    refine ⟨_, rfl, ?_, ?_, ?_, ?_, ?_, ?_⟩
    · exact ⟨"text mismatch: ", " in " ++ a.docid ++ " (" ++ pyStr a.start ++
        "-" ++ pyStr a.end_ ++ "): \x22" ++ pySlice docText a.start a.end_ ++
        "\x22 vs. \x22" ++ a.text ++ "\x22",
        by apply String.ext; simp [String.data_append]⟩
    · exact ⟨"text mismatch: " ++ a.type ++ " in ", " (" ++ pyStr a.start ++
        "-" ++ pyStr a.end_ ++ "): \x22" ++ pySlice docText a.start a.end_ ++
        "\x22 vs. \x22" ++ a.text ++ "\x22",
        by apply String.ext; simp [String.data_append]⟩
    · exact ⟨"text mismatch: " ++ a.type ++ " in " ++ a.docid ++ " (",
        "-" ++ pyStr a.end_ ++ "): \x22" ++ pySlice docText a.start a.end_ ++
        "\x22 vs. \x22" ++ a.text ++ "\x22",
        by apply String.ext; simp [String.data_append]⟩
    · exact ⟨"text mismatch: " ++ a.type ++ " in " ++ a.docid ++ " (" ++
        pyStr a.start ++ "-",
        "): \x22" ++ pySlice docText a.start a.end_ ++ "\x22 vs. \x22" ++
        a.text ++ "\x22",
        by apply String.ext; simp [String.data_append]⟩
    · exact ⟨"text mismatch: " ++ a.type ++ " in " ++ a.docid ++ " (" ++
        pyStr a.start ++ "-" ++ pyStr a.end_ ++ "): \x22",
        "\x22 vs. \x22" ++ a.text ++ "\x22",
        by apply String.ext; simp [String.data_append]⟩
    · exact ⟨"text mismatch: " ++ a.type ++ " in " ++ a.docid ++ " (" ++
        pyStr a.start ++ "-" ++ pyStr a.end_ ++ "): \x22" ++
        pySlice docText a.start a.end_ ++ "\x22 vs. \x22", "\x22",
        by apply String.ext; simp [String.data_append]⟩
  · intro a docText
    unfold SpanAnn.validate
    dsimp only
    cases hr : a.rawNorm with
    | none => simp
    | some raw =>
      dsimp only
      by_cases hcond : (decide (raw ≠ "") && !raw.data.any Char.isAlphanum) = true
      · rw [if_pos hcond]
        simp only [Option.isSome_some, true_iff]
        rw [Bool.and_eq_true] at hcond
        obtain ⟨h1, h2⟩ := hcond
        refine ⟨raw, rfl, by simpa using h1, by simpa using h2⟩
      · rw [if_neg hcond]
        simp only [Option.isSome_none, Bool.false_eq_true, false_iff]
        rintro ⟨raw2, hraw2, hne, hany⟩
        injection hraw2 with he
        subst he
        apply hcond
        simp [hne, hany]

/-- Witness for C7: a span whose stored text disagrees with the document
text warns (without raising), and the same span's validate raises iff its
norm field is non-alphanumeric. -/
theorem c7_witness :
    (∃ w, (SpanAnn.validate ⟨"1", 0, 3, "abc", "Gene", some "--", none⟩
        "xyz w").1 = [w] ∧
      (∃ x y, w = x ++ "Gene" ++ y) ∧
      (∃ x y, w = x ++ "1" ++ y) ∧
      (∃ x y, w = x ++ pyStr 0 ++ y) ∧
      (∃ x y, w = x ++ pyStr 3 ++ y) ∧
      (∃ x y, w = x ++ pySlice "xyz w" 0 3 ++ y) ∧
      (∃ x y, w = x ++ "abc" ++ y)) ∧
    ((SpanAnn.validate ⟨"1", 0, 3, "abc", "Gene", some "--", none⟩
        "xyz w").2.isSome = true ↔
      ∃ raw, (some "--" : Option String) = some raw ∧ raw ≠ "" ∧
        raw.data.any Char.isAlphanum = false) :=
  ⟨c7_validate_warning_and_norm_error.1
      ⟨"1", 0, 3, "abc", "Gene", some "--", none⟩ "xyz w" (by decide),
    c7_validate_warning_and_norm_error.2
      ⟨"1", 0, 3, "abc", "Gene", some "--", none⟩ "xyz w"⟩

theorem to_ann_lines_head {a : SpanAnn} {taken ls tk : List String}
    (h : a.to_ann_lines taken = Except.ok (ls, tk)) :
    ls.head? = some (next_in_seq "T" taken ++ "\t" ++ map_to_output_type a.type ++
      " " ++ pyStr a.start ++ " " ++ pyStr a.end_ ++ "\t" ++ a.text) := by
  unfold SpanAnn.to_ann_lines at h
  rcases hn : a.norms with e | ns
  · rw [hn] at h; simp at h
  · rw [hn] at h
    dsimp only at h
    obtain ⟨nids, h1, -, -⟩ := annNormFold_spec (next_in_seq "T" taken) a.text ns
      (taken ++ [next_in_seq "T" taken])
      [next_in_seq "T" taken ++ "\t" ++ map_to_output_type a.type ++ " " ++
        pyStr a.start ++ " " ++ pyStr a.end_ ++ "\t" ++ a.text]
    rw [h1] at h
    simp only [Except.ok.injEq, Prod.mk.injEq] at h
    obtain ⟨hl, -⟩ := h
    rw [← hl]
    simp

/-- C8: spans typed `DNAMutation`, `ProteinMutation` or `SNP` are rendered
with display type `Mutation`, and every other type string is rendered
unchanged, in all four serializers: the JSON records' `type`, the OA
records' `@type`, the WA records' `body.type`, and the standoff `T` line
all carry `map_to_output_type` of the span's type. -/
theorem c8_mutation_display_type :
    (∀ t : String, t = "DNAMutation" ∨ t = "ProteinMutation" ∨ t = "SNP" →
      map_to_output_type t = "Mutation") ∧
    (∀ t : String, ¬(t = "DNAMutation" ∨ t = "ProteinMutation" ∨ t = "SNP") →
      map_to_output_type t = t) ∧
    (∀ (a : SpanAnn) (l : List JsonRecord), a.to_dicts = Except.ok l →
      ∀ r ∈ l, r.type = map_to_output_type a.type) ∧
    (∀ (a : SpanAnn) (u : String) (idx : Nat) (l : List OaRecord),
      a.to_oa_jsonld_dicts u idx = Except.ok l →
      ∀ r ∈ l, r.at_type = map_to_output_type a.type) ∧
    (∀ (a : SpanAnn) (u : String) (idx : Nat) (l : List WaRecord),
      a.to_wa_jsonld_dicts u idx = Except.ok l →
      ∀ r ∈ l, r.body_type = map_to_output_type a.type) ∧
    (∀ (a : SpanAnn) (taken ls tk : List String),
      a.to_ann_lines taken = Except.ok (ls, tk) →
      ls.head? = some (next_in_seq "T" taken ++ "\t" ++
        map_to_output_type a.type ++ " " ++ pyStr a.start ++ " " ++
        pyStr a.end_ ++ "\t" ++ a.text)) := by
  refine ⟨?_, ?_, ?_, ?_, ?_, fun a taken ls tk h => to_ann_lines_head h⟩
  · intro t ht
    unfold map_to_output_type
    rw [if_pos ht]
  · intro t ht
    unfold map_to_output_type
    rw [if_neg ht]
  · intro a l h r hr
    unfold SpanAnn.to_dicts at h
    rcases hn : a.norms with e | ns
    · rw [hn] at h; simp [Except.map] at h
    · rw [hn] at h
      simp only [Except.map, Except.ok.injEq] at h
      subst h
      obtain ⟨n, -, rfl⟩ := List.mem_map.mp hr
      rfl
  · intro a u idx l h r hr
    unfold SpanAnn.to_oa_jsonld_dicts at h
    rcases hn : a.norms with e | ns
    · rw [hn] at h; simp [Except.map] at h
    · rw [hn] at h
      simp only [Except.map, Except.ok.injEq] at h
      subst h
      obtain ⟨n, -, rfl⟩ := List.mem_map.mp hr
      rfl
  · intro a u idx l h r hr
    unfold SpanAnn.to_wa_jsonld_dicts at h
    rcases hn : a.norms with e | ns
    · rw [hn] at h; simp [Except.map] at h
    · rw [hn] at h
      simp only [Except.map, Except.ok.injEq] at h
      subst h
      obtain ⟨n, -, rfl⟩ := List.mem_map.mp hr
      rfl

/-- Witness for C8 at a SNP-typed span: display type `Mutation` in the
JSON record, the OA record, the WA record, and the standoff `T` line. -/
theorem c8_witness :
    map_to_output_type "SNP" = "Mutation" ∧
    map_to_output_type "Disease" = "Disease" ∧
    (∀ r ∈ ([⟨0, 1, "x", "Mutation", some "SNP:rs123"⟩] : List JsonRecord),
      r.type = map_to_output_type ("SNP" : String)) ∧
    (["T1\tMutation 0 1\tx",
      "N1\tReference T1 SNP:rs123\tx"] : List String).head? =
      some (next_in_seq "T" [] ++ "\t" ++ map_to_output_type "SNP" ++ " " ++
        pyStr 0 ++ " " ++ pyStr 1 ++ "\t" ++ "x") :=
  ⟨c8_mutation_display_type.1 "SNP" (by decide),
    c8_mutation_display_type.2.1 "Disease" (by decide),
    c8_mutation_display_type.2.2.1
      ⟨"1", 0, 1, "x", "SNP", some "rs123", none⟩
      [⟨0, 1, "x", "Mutation", some "SNP:rs123"⟩] rfl,
    c8_mutation_display_type.2.2.2.2.2
      ⟨"1", 0, 1, "x", "SNP", some "rs123", none⟩ []
      ["T1\tMutation 0 1\tx", "N1\tReference T1 SNP:rs123\tx"]
      ["T1", "N1"] rfl⟩

theorem sorted_sortFields (l : List (String × JVal)) :
    List.Sorted (fun a b => a.1 ≤ b.1) (sortFields l) := by
  haveI : IsTotal (String × JVal) (fun a b => a.1 ≤ b.1) :=
    ⟨fun a b => le_total a.1 b.1⟩
  haveI : IsTrans (String × JVal) (fun a b => a.1 ≤ b.1) :=
    ⟨fun a b c h1 h2 => le_trans h1 h2⟩
  exact List.sorted_insertionSort _ l

theorem sortFields_perm (l : List (String × JVal)) : List.Perm (sortFields l) l :=
  List.perm_insertionSort _ l

theorem sorted_lt_of_sorted_le_nodup {m : List (String × JVal)}
    (hs : List.Sorted (fun a b => a.1 ≤ b.1) m)
    (hnd : (m.map Prod.fst).Nodup) :
    List.Sorted (fun a b : String × JVal => a.1 < b.1) m := by
  have hnd2 : List.Pairwise (fun a b : String × JVal => a.1 ≠ b.1) m :=
    List.pairwise_map.mp hnd
  exact (hs.and hnd2).imp fun hab => lt_of_le_of_ne hab.1 hab.2

theorem sortFields_eq_of_perm {l1 l2 : List (String × JVal)}
    (hperm : List.Perm l1 l2) (hnd : (l1.map Prod.fst).Nodup) :
    sortFields l1 = sortFields l2 := by
  have hp : List.Perm (sortFields l1) (sortFields l2) :=
    (sortFields_perm l1).trans (hperm.trans (sortFields_perm l2).symm)
  have hnd1 : ((sortFields l1).map Prod.fst).Nodup :=
    (((sortFields_perm l1).map Prod.fst).nodup_iff).mpr hnd
  have hnd2 : ((sortFields l2).map Prod.fst).Nodup :=
    (((sortFields_perm l2).map Prod.fst).nodup_iff).mpr
      ((hperm.map Prod.fst).nodup_iff.mp hnd)
  haveI : IsAntisymm (String × JVal) (fun a b => a.1 < b.1) :=
    ⟨fun a b h1 h2 => absurd h2 (lt_asymm h1)⟩
  exact List.eq_of_perm_of_sorted hp
    (sorted_lt_of_sorted_le_nodup (sorted_sortFields l1) hnd1)
    (sorted_lt_of_sorted_le_nodup (sorted_sortFields l2) hnd2)

/-- C9: the serializers are deterministic functions of the document — in
particular the standoff output (with its `T`/`N` numbering) depends only
on the annotation list, so two runs over the same annotations mint
identical identifiers — and the pretty-printer model of
`json.dumps(sort_keys=True, indent=2)` renders object keys sorted
lexicographically, so its output does not depend on the insertion order of
distinct keys: byte-identical output on repeated runs. -/
theorem c9_deterministic_serialization :
    (∀ d1 d2 : PubTatorDocument, d1.anns = d2.anns →
      write_standoff_ann d1 = write_standoff_ann d2) ∧
    (∀ l : List (String × JVal),
      List.Sorted (fun a b => a.1 ≤ b.1) (sortFields l)) ∧
    (∀ (ind : Nat) (l1 l2 : List (String × JVal)), List.Perm l1 l2 →
      (l1.map Prod.fst).Nodup →
      renderFlatObj ind l1 = renderFlatObj ind l2) := by
  refine ⟨?_, sorted_sortFields, ?_⟩
  · intro d1 d2 h
    unfold write_standoff_ann
    rw [h]
  · intro ind l1 l2 hperm hnd
    unfold renderFlatObj
    rw [sortFields_eq_of_perm hperm hnd]

/-- Witness for C9: standoff output of two documents with different ids
and text but the same annotations is identical, and the flat-object
renderer gives the same bytes for two insertion orders of the same
fields. -/
theorem c9_witness :
    write_standoff_ann ⟨some "1", [('t', "A")],
        [Ann.span ⟨"1", 0, 7, "Aspirin", "Chemical", some "MESH:D001241", none⟩]⟩ =
      write_standoff_ann ⟨some "2", [('a', "B")],
        [Ann.span ⟨"1", 0, 7, "Aspirin", "Chemical", some "MESH:D001241", none⟩]⟩ ∧
    renderFlatObj 2 [("type", JVal.s "Chemical"), ("start", JVal.n 0)] =
      renderFlatObj 2 [("start", JVal.n 0), ("type", JVal.s "Chemical")] :=
  ⟨c9_deterministic_serialization.1 _ _ rfl,
    c9_deterministic_serialization.2.2 2 _ _ (by decide) (by decide)⟩

/-- Witness for C4 at the spec's own example span (`Aspirin`, `Chemical`,
norm `MESH:D001241`, whose namespace is already present): the `N1` line is
still emitted. -/
theorem c4_witness :
    ∃ nids,
      SpanAnn.to_ann_lines ⟨"1", 0, 7, "Aspirin", "Chemical", some "MESH:D001241", none⟩ [] =
        Except.ok
          ((next_in_seq "T" [] ++ "\t" ++
              map_to_output_type "Chemical" ++ " " ++ pyStr 0 ++ " " ++ pyStr 7 ++
              "\t" ++ "Aspirin") ::
            ((nids.zip (([some "MESH:D001241"].filterMap pyTruthy))).map fun p =>
              p.1 ++ "\tReference " ++ next_in_seq "T" [] ++ " " ++ p.2 ++
                "\t" ++ "Aspirin"),
            (([] : List String) ++ [next_in_seq "T" []]) ++ nids) ∧
      nids.length = ([some "MESH:D001241"].filterMap pyTruthy).length ∧
      ∀ k (hk : k < nids.length),
        nids.get ⟨k, hk⟩ =
          next_in_seq "N" ((([] : List String) ++ [next_in_seq "T" []]) ++ nids.take k) :=
  c4_standoff_lines_and_minting.2
    ⟨"1", 0, 7, "Aspirin", "Chemical", some "MESH:D001241", none⟩ [] [some "MESH:D001241"]
    rfl

end Pubtator
